import Mathlib

/-!
Verification development for the gossipsub mesh router of this repository
(files src/protocols/gossipsub/src/layer.rs and
src/protocols/gossipsub/src/protocol.rs).

The router state and every operation the claims touch are embedded as
executable Lean definitions.  Hash maps become association lists (lookup
finds the first matching key; insertion replaces in place), hash sets become
duplicate-free lists in insertion order, and the thread-local random
generator is passed in as an explicit shuffling function which the theorems
constrain to be a permutation.  Instants are natural numbers.
-/

set_option linter.unusedVariables false

abbrev PeerId := Nat
abbrev TopicHash := Nat
abbrev MessageId := String

/-- A shuffling of a peer list, standing for the thread_rng-driven
shuffle / partial_shuffle of the source. -/
abbrev Shuffler := List PeerId → List PeerId

/-- Association-list lookup: first entry with the given key. -/
def lookupA {α β : Type} [DecidableEq α] (m : List (α × β)) (k : α) : Option β :=
  match m with
  | [] => none
  | (k', v) :: rest => if k = k' then some v else lookupA rest k

/-- Association-list insert: replace the value at the key in place, or append. -/
def insertA {α β : Type} [DecidableEq α] (m : List (α × β)) (k : α) (v : β) :
    List (α × β) :=
  match m with
  | [] => [(k, v)]
  | (k', v') :: rest =>
    if k = k' then (k', v) :: rest else (k', v') :: insertA rest k v

/-- Association-list removal of a key (hash maps hold a key at most once). -/
def eraseA {α β : Type} [DecidableEq α] (m : List (α × β)) (k : α) : List (α × β) :=
  match m with
  | [] => []
  | (k', v) :: rest => if k' = k then eraseA rest k else (k', v) :: eraseA rest k

/-- Get-or-default-then-modify, the entry().or_insert_with() pattern. -/
def upsertA {α β : Type} [DecidableEq α] (m : List (α × β)) (k : α) (d : β)
    (f : β → β) : List (α × β) :=
  match m with
  | [] => [(k, f d)]
  | (k', v) :: rest =>
    if k = k' then (k', f v) :: rest else (k', v) :: upsertA rest k d f

/-- Hash-set insertion: duplicate-free list in insertion order. -/
def insertSet {α : Type} [DecidableEq α] (l : List α) (a : α) : List α :=
  if a ∈ l then l else l ++ [a]

/-- Remove the first occurrence, if any (the position-then-remove pattern). -/
def eraseFirst {α : Type} [DecidableEq α] (l : List α) (a : α) : List α :=
  match l with
  | [] => []
  | x :: xs => if x = a then xs else x :: eraseFirst xs a

/-- The configuration fields of GossipsubConfig that layer.rs reads.
(The heartbeat timing fields are host-driver concerns and are not part of
any state transition embedded here.) -/
structure GossipsubConfig where
  mesh_n : Nat
  mesh_n_low : Nat
  mesh_n_high : Nat
  gossip_lazy : Nat
  history_gossip : Nat
  history_length : Nat
  fanout_ttl : Nat
deriving DecidableEq, Repr

/-- Modelled from the spec: gossipsub_config.rs is not among the provided
sources; section 6 of the spec gives the defaults mesh_n=6, mesh_n_low=4,
mesh_n_high=12, gossip_lazy=6, history_gossip=3, history_length=5,
fanout_ttl=60 s. -/
def GossipsubConfig.defaults : GossipsubConfig :=
  { mesh_n := 6, mesh_n_low := 4, mesh_n_high := 12, gossip_lazy := 6
    history_gossip := 3, history_length := 5, fanout_ttl := 60 }

/-- GossipsubMessage of protocol.rs: source, payload bytes, raw sequence
number bytes, topic list.  Bytes are naturals below 256. -/
structure GossipsubMessage where
  source : PeerId
  data : List Nat
  sequence_number : List Nat
  topics : List TopicHash
deriving DecidableEq, Repr

/-- Big-endian read of the first eight bytes, as byteorder read_u64 does. -/
def readU64BE (bytes : List Nat) : Nat :=
  (bytes.take 8).foldl (fun acc b => acc * 256 + b % 256) 0

/-- Base58 text of a peer id.  Peer identity is an external collaborator;
only that equal peers give equal text (and distinct peers distinct text)
matters, so the decimal rendering stands in for base58. -/
def peerIdBase58 (p : PeerId) : String := toString p

/-- GossipsubMessage::id of protocol.rs: base58 of the source followed by
the decimal sequence number, where a sequence-number field shorter than
eight bytes is read as zero. -/
def GossipsubMessage.id (m : GossipsubMessage) : MessageId :=
  peerIdBase58 m.source ++
    toString (if 8 ≤ m.sequence_number.length then readU64BE m.sequence_number else 0)

/-- Subscription actions of protocol.rs. -/
inductive GossipsubSubscriptionAction where
  | Subscribe
  | Unsubscribe
deriving DecidableEq, Repr

/-- A subscription update of protocol.rs. -/
structure GossipsubSubscription where
  topic_hash : TopicHash
  action : GossipsubSubscriptionAction
deriving DecidableEq, Repr

/-- Control actions of protocol.rs. -/
inductive GossipsubControlAction where
  | IHave (topic_hash : TopicHash) (message_ids : List MessageId)
  | IWant (message_ids : List MessageId)
  | Graft (topic_hash : TopicHash)
  | Prune (topic_hash : TopicHash)
deriving DecidableEq, Repr

/-- An RPC frame of protocol.rs. -/
structure GossipsubRpc where
  messages : List GossipsubMessage
  subscriptions : List GossipsubSubscription
  control_msgs : List GossipsubControlAction
deriving DecidableEq, Repr

/-- App-facing events of layer.rs. -/
inductive GossipsubEvent where
  | Message (m : GossipsubMessage)
  | Subscribed (peer_id : PeerId) (topic : TopicHash)
  | Unsubscribed (peer_id : PeerId) (topic : TopicHash)
deriving DecidableEq, Repr

/-- The swarm actions layer.rs enqueues (DialPeer does not occur in this
revision of the source). -/
inductive NetworkBehaviourAction where
  | SendEvent (peer_id : PeerId) (event : GossipsubRpc)
  | GenerateEvent (e : GossipsubEvent)
deriving DecidableEq, Repr

/-- The node kinds of layer.rs. -/
inductive NodeType where
  | Gossipsub
  | Floodsub
deriving DecidableEq, Repr

/-- PeerList of layer.rs. -/
structure PeerList where
  gossipsub : List PeerId
  floodsub : List PeerId
deriving DecidableEq, Repr

def PeerList.new : PeerList := { gossipsub := [], floodsub := [] }

/-- Modelled from the spec: the message cache implementation (mcache.rs) is
not among the provided sources.  Section 4.6: a list of generations, newest
first; put inserts into the newest generation; get searches every
generation; get_gossip_ids reads the first history_gossip generations;
shift rotates in a fresh generation and evicts beyond history_length. -/
structure MessageCache where
  gossip : Nat
  history_length : Nat
  history : List (List GossipsubMessage)
deriving DecidableEq, Repr

def MessageCache.new (gossip history_length : Nat) : MessageCache :=
  { gossip := gossip, history_length := history_length
    history := List.replicate history_length [] }

def MessageCache.put (c : MessageCache) (m : GossipsubMessage) : MessageCache :=
  match c.history with
  | [] => { c with history := [[m]] }
  | g :: rest => { c with history := (m :: g) :: rest }

def MessageCache.get (c : MessageCache) (id : MessageId) : Option GossipsubMessage :=
  c.history.flatten.find? (fun m => m.id == id)

def MessageCache.get_gossip_ids (c : MessageCache) (topic : TopicHash) : List MessageId :=
  (((c.history.take c.gossip).flatten).filter
      (fun m => m.topics.contains topic)).map GossipsubMessage.id

def MessageCache.shift (c : MessageCache) : MessageCache :=
  { c with history := ([] :: c.history).take c.history_length }

/-- The router state: the fields of struct Gossipsub in layer.rs (the
heartbeat timer and the substream marker carry no router state). -/
structure Gossipsub where
  config : GossipsubConfig
  events : List NetworkBehaviourAction
  control_pool : List (PeerId × List GossipsubControlAction)
  local_peer_id : PeerId
  topic_peers : List (TopicHash × PeerList)
  peer_topics : List (PeerId × (List TopicHash × NodeType))
  mesh : List (TopicHash × List PeerId)
  fanout : List (TopicHash × List PeerId)
  fanout_last_pub : List (TopicHash × Nat)
  mcache : MessageCache
  received : List MessageId
deriving DecidableEq, Repr

/-- Gossipsub::new. -/
def Gossipsub.new (local_peer_id : PeerId) (gs_config : GossipsubConfig) : Gossipsub :=
  { config := gs_config, events := [], control_pool := []
    local_peer_id := local_peer_id, topic_peers := [], peer_topics := []
    mesh := [], fanout := [], fanout_last_pub := []
    mcache := MessageCache.new gs_config.history_gossip gs_config.history_length
    received := [] }

def pushEvent (s : Gossipsub) (e : NetworkBehaviourAction) : Gossipsub :=
  { s with events := s.events ++ [e] }

/-- Gossipsub::get_random_peers of layer.rs.  It reads only topic_peers, so
it is a function of that map; the rng-driven partial_shuffle is the
shuffling argument followed by take. -/
def get_random_peers (topic_peers : List (TopicHash × PeerList))
    (topic_hash : TopicHash) (n : Nat) (f : PeerId → Bool) (σ : Shuffler) :
    List PeerId :=
  let gossip_peers : List PeerId :=
    match lookupA topic_peers topic_hash with
    | some peer_list => peer_list.gossipsub.filter f
    | none => []
  if gossip_peers.length ≤ n then gossip_peers
  else (σ gossip_peers).take n

/-- Gossipsub::control_pool_add. -/
def Gossipsub.control_pool_add (s : Gossipsub) (peer : PeerId)
    (control : GossipsubControlAction) : Gossipsub :=
  { s with control_pool := upsertA s.control_pool peer [] (fun l => l ++ [control]) }

/-- Gossipsub::join. -/
def Gossipsub.join (s : Gossipsub) (topic_hash : TopicHash) (σ : Shuffler) : Gossipsub :=
  if (lookupA s.mesh topic_hash).isSome then s
  else
    let fanout_step : List PeerId × Gossipsub :=
      match lookupA s.fanout topic_hash with
      | some peers =>
        let add_peers := min peers.length s.config.mesh_n
        (peers.take add_peers,
         { s with fanout := eraseA s.fanout topic_hash
                  mesh := insertA s.mesh topic_hash (peers.take add_peers)
                  fanout_last_pub := eraseA s.fanout_last_pub topic_hash })
      | none => ([], s)
    let added0 := fanout_step.1
    let s := fanout_step.2
    let grow_step : List PeerId × Gossipsub :=
      if added0.length < s.config.mesh_n then
        let new_peers := get_random_peers s.topic_peers topic_hash
          (s.config.mesh_n - added0.length) (fun _ => true) σ
        (added0 ++ new_peers,
         { s with mesh := upsertA s.mesh topic_hash [] (fun l => l ++ new_peers) })
      else (added0, s)
    grow_step.1.foldl
      (fun s peer_id => s.control_pool_add peer_id (.Graft topic_hash))
      grow_step.2

/-- Gossipsub::subscribe (the argument is the topic hash; hashing the topic
is out of scope). -/
def Gossipsub.subscribe (s : Gossipsub) (topic : TopicHash) (σ : Shuffler) :
    Gossipsub × Bool :=
  if (lookupA s.mesh topic).isSome then (s, false)
  else
    let s :=
      match lookupA s.topic_peers topic with
      | some peer_list =>
        (peer_list.floodsub ++ peer_list.gossipsub).foldl
          (fun s peer =>
            pushEvent s (.SendEvent peer
              { messages := []
                subscriptions := [{ topic_hash := topic, action := .Subscribe }]
                control_msgs := [] }))
          s
      | none => s
    (s.join topic σ, true)

/-- Gossipsub::leave. -/
def Gossipsub.leave (s : Gossipsub) (topic_hash : TopicHash) : Gossipsub :=
  match lookupA s.mesh topic_hash with
  | some peers =>
    let s := { s with mesh := eraseA s.mesh topic_hash }
    peers.foldl (fun s peer => s.control_pool_add peer (.Prune topic_hash)) s
  | none => s

/-- Gossipsub::unsubscribe. -/
def Gossipsub.unsubscribe (s : Gossipsub) (topic_hash : TopicHash) :
    Gossipsub × Bool :=
  if (lookupA s.mesh topic_hash).isNone then (s, false)
  else
    let s :=
      match lookupA s.topic_peers topic_hash with
      | some peer_list =>
        (peer_list.floodsub ++ peer_list.gossipsub).foldl
          (fun s peer =>
            pushEvent s (.SendEvent peer
              { messages := []
                subscriptions := [{ topic_hash := topic_hash, action := .Unsubscribe }]
                control_msgs := [] }))
          s
      | none => s
    (s.leave topic_hash, true)

/-- The recipient set built by Gossipsub::forward_msg: floodsub peers and
mesh peers of each topic of the message, the propagation source excluded. -/
def forwardRecipients (s : Gossipsub) (message : GossipsubMessage)
    (source : PeerId) : List PeerId :=
  message.topics.foldl
    (fun acc topic =>
      let acc :=
        match lookupA s.topic_peers topic with
        | some peer_list =>
          peer_list.floodsub.foldl
            (fun acc peer_id => if peer_id ≠ source then insertSet acc peer_id else acc)
            acc
        | none => acc
      match lookupA s.mesh topic with
      | some mesh_peers =>
        mesh_peers.foldl
          (fun acc peer_id => if peer_id ≠ source then insertSet acc peer_id else acc)
          acc
      | none => acc)
    []

/-- Gossipsub::forward_msg. -/
def Gossipsub.forward_msg (s : Gossipsub) (message : GossipsubMessage)
    (source : PeerId) : Gossipsub :=
  (forwardRecipients s message source).foldl
    (fun s peer =>
      pushEvent s (.SendEvent peer
        { messages := [message], subscriptions := [], control_msgs := [] }))
    s

/-- Gossipsub::publish_many.  The random sequence number and the current
instant are arguments; the recipient map keyed by peer becomes a
duplicate-free list. -/
def Gossipsub.publish_many (s : Gossipsub) (topics : List TopicHash)
    (data : List Nat) (seqno : List Nat) (now : Nat) (σ : Shuffler) : Gossipsub :=
  let message : GossipsubMessage :=
    { source := s.local_peer_id, data := data, sequence_number := seqno
      topics := topics }
  let s := s.forward_msg message s.local_peer_id
  let fanout_pass : List PeerId × Gossipsub :=
    message.topics.foldl
      (fun acc topic_hash =>
        let recipient_peers := acc.1
        let s := acc.2
        if (lookupA s.mesh topic_hash).isNone then
          let picked : List PeerId × Gossipsub :=
            match lookupA s.fanout topic_hash with
            | some peers => (peers.foldl insertSet recipient_peers, s)
            | none =>
              let new_peers := get_random_peers s.topic_peers topic_hash
                s.config.mesh_n (fun _ => true) σ
              (new_peers.foldl insertSet recipient_peers,
               { s with fanout := insertA s.fanout topic_hash new_peers })
          (picked.1,
           { picked.2 with
               fanout_last_pub := insertA picked.2.fanout_last_pub topic_hash now })
        else acc)
      ([], s)
  let recipient_peers := fanout_pass.1
  let s := fanout_pass.2
  let s := { s with mcache := s.mcache.put message
                    received := message.id :: s.received }
  recipient_peers.foldl
    (fun s peer_id =>
      pushEvent s (.SendEvent peer_id
        { messages := [message], subscriptions := [], control_msgs := [] }))
    s

/-- Gossipsub::handle_received_message.  The cuckoo dedup filter becomes a
set of message ids: test_and_add succeeds exactly when the id is fresh. -/
def Gossipsub.handle_received_message (s : Gossipsub) (msg : GossipsubMessage)
    (propagation_source : PeerId) : Gossipsub :=
  if msg.id ∈ s.received then s
  else
    let s := { s with received := msg.id :: s.received }
    let s := { s with mcache := s.mcache.put msg }
    let s :=
      if s.mesh.any (fun tp => msg.topics.any (fun u => tp.1 == u)) then
        pushEvent s (.GenerateEvent (.Message msg))
      else s
    s.forward_msg msg propagation_source

/-- One iteration of the subscription loop of handle_received_subscriptions
(the source holds mutable references into peer_topics across the loop, which
is the same as re-reading the entry each iteration). -/
def apply_subscription (propagation_source : PeerId) (s : Gossipsub)
    (subscription : GossipsubSubscription) : Gossipsub :=
  match lookupA s.peer_topics propagation_source with
  | none => s
  | some (subscribed_topics, node_type) =>
      let peer_list := (lookupA s.topic_peers subscription.topic_hash).getD PeerList.new
      match subscription.action with
      | .Subscribe =>
        let peer_list :=
          match node_type with
          | .Floodsub =>
            if propagation_source ∈ peer_list.floodsub then peer_list
            else { peer_list with
                     floodsub := peer_list.floodsub ++ [propagation_source] }
          | .Gossipsub =>
            if propagation_source ∈ peer_list.gossipsub then peer_list
            else { peer_list with
                     gossipsub := peer_list.gossipsub ++ [propagation_source] }
        let s := { s with
          topic_peers := insertA s.topic_peers subscription.topic_hash peer_list }
        let s :=
          if subscription.topic_hash ∈ subscribed_topics then s
          else { s with
            peer_topics := insertA s.peer_topics propagation_source
              (subscribed_topics ++ [subscription.topic_hash], node_type) }
        pushEvent s (.GenerateEvent
          (.Subscribed propagation_source subscription.topic_hash))
      | .Unsubscribe =>
        let peer_list :=
          match node_type with
          | .Floodsub =>
            { peer_list with
                floodsub := eraseFirst peer_list.floodsub propagation_source }
          | .Gossipsub =>
            { peer_list with
                gossipsub := eraseFirst peer_list.gossipsub propagation_source }
        let s := { s with
          topic_peers := insertA s.topic_peers subscription.topic_hash peer_list }
        let s := { s with
          peer_topics := insertA s.peer_topics propagation_source
            (eraseFirst subscribed_topics subscription.topic_hash, node_type) }
        pushEvent s (.GenerateEvent
          (.Unsubscribed propagation_source subscription.topic_hash))

/-- Gossipsub::handle_received_subscriptions. -/
def Gossipsub.handle_received_subscriptions (s : Gossipsub)
    (subscriptions : List GossipsubSubscription) (propagation_source : PeerId) :
    Gossipsub :=
  match lookupA s.peer_topics propagation_source with
  | none => s
  | some _ => subscriptions.foldl (apply_subscription propagation_source) s

/-- The id-collection loop of Gossipsub::handle_ihave.  The source returns
from the whole handler at the first entry whose topic is not in the mesh
(the comment beside that return says continue); none models that early
return. -/
def ihaveCollect (s : Gossipsub) :
    List (TopicHash × List MessageId) → List MessageId → Option (List MessageId)
  | [], iwant_ids => some iwant_ids
  | (topic, ids) :: rest, iwant_ids =>
    if (lookupA s.mesh topic).isNone then none
    else
      ihaveCollect s rest
        (ids.foldl (fun acc id => if id ∈ s.received then acc else insertSet acc id)
          iwant_ids)

/-- Gossipsub::handle_ihave. -/
def Gossipsub.handle_ihave (s : Gossipsub) (peer_id : PeerId)
    (ihave_msgs : List (TopicHash × List MessageId)) : Gossipsub :=
  match ihaveCollect s ihave_msgs [] with
  | none => s
  | some iwant_ids =>
    if iwant_ids.isEmpty then s
    else s.control_pool_add peer_id (.IWant iwant_ids)

/-- Gossipsub::handle_iwant.  The intermediate map keyed by message id is an
association list; the messages sent are its values. -/
def Gossipsub.handle_iwant (s : Gossipsub) (peer_id : PeerId)
    (iwant_msgs : List MessageId) : Gossipsub :=
  let cached_messages : List (MessageId × GossipsubMessage) :=
    iwant_msgs.foldl
      (fun acc id =>
        match s.mcache.get id with
        | some msg => insertA acc id msg
        | none => acc)
      []
  if cached_messages.isEmpty then s
  else
    pushEvent s (.SendEvent peer_id
      { messages := cached_messages.map Prod.snd, subscriptions := []
        control_msgs := [] })

/-- Gossipsub::handle_graft.  A subscribed topic has the peer pushed onto
mesh[topic] unconditionally; the rest collect into a prune reply. -/
def Gossipsub.handle_graft (s : Gossipsub) (peer_id : PeerId)
    (topics : List TopicHash) : Gossipsub :=
  let pass : Gossipsub × List TopicHash :=
    topics.foldl
      (fun acc topic_hash =>
        match lookupA acc.1.mesh topic_hash with
        | some _ =>
          ({ acc.1 with
               mesh := upsertA acc.1.mesh topic_hash [] (fun l => l ++ [peer_id]) },
           acc.2)
        | none => (acc.1, insertSet acc.2 topic_hash))
      (s, [])
  let s := pass.1
  let to_prune_topics := pass.2
  if to_prune_topics.isEmpty then s
  else
    pushEvent s (.SendEvent peer_id
      { messages := [], subscriptions := []
        control_msgs := to_prune_topics.map GossipsubControlAction.Prune })

/-- Gossipsub::handle_prune: drop the peer from mesh[topic] for each listed
topic.  No backoff state exists in this revision of the source. -/
def Gossipsub.handle_prune (s : Gossipsub) (peer_id : PeerId)
    (topics : List TopicHash) : Gossipsub :=
  topics.foldl
    (fun s topic_hash =>
      match lookupA s.mesh topic_hash with
      | some peers =>
        { s with mesh := insertA s.mesh topic_hash (peers.filter (fun p => p ≠ peer_id)) }
      | none => s)
    s

/-- Gossipsub::emit_gossip for one topic. -/
def Gossipsub.emit_gossip (s : Gossipsub) (topic_hash : TopicHash)
    (peers : List PeerId) (σ : Shuffler) : Gossipsub :=
  let message_ids := s.mcache.get_gossip_ids topic_hash
  if message_ids.isEmpty then s
  else
    let to_msg_peers := get_random_peers s.topic_peers topic_hash
      s.config.gossip_lazy (fun peer => !(peers.contains peer)) σ
    to_msg_peers.foldl
      (fun s peer => s.control_pool_add peer (.IHave topic_hash message_ids))
      s

/-- The per-topic mesh maintenance of Gossipsub::heartbeat: grow when below
mesh_n_low (new peers drawn outside the current mesh), then shuffle and pop
the excess when above mesh_n_high.  Returns the maintained peer list, the
peers added and the peers removed (in pop order). -/
def mesh_maintain (cfg : GossipsubConfig)
    (topic_peers : List (TopicHash × PeerList)) (σ : Shuffler)
    (topic_hash : TopicHash) (peers : List PeerId) :
    List PeerId × List PeerId × List PeerId :=
  let low_pass : List PeerId × List PeerId :=
    if peers.length < cfg.mesh_n_low then
      let desired_peers := cfg.mesh_n - peers.length
      let peer_list := get_random_peers topic_peers topic_hash desired_peers
        (fun peer => !(peers.contains peer)) σ
      (peers ++ peer_list, peer_list)
    else (peers, [])
  let peers1 := low_pass.1
  let high_pass : List PeerId × List PeerId :=
    if peers1.length > cfg.mesh_n_high then
      let excess_peer_no := peers1.length - cfg.mesh_n
      let shuffled := σ peers1
      (shuffled.take (shuffled.length - excess_peer_no),
       (shuffled.drop (shuffled.length - excess_peer_no)).reverse)
    else (peers1, [])
  (high_pass.1, low_pass.2, high_pass.2)

/-- One iteration of the mesh-maintenance loop of Gossipsub::heartbeat:
maintain the topic of the snapshot entry, write the result back, extend the
to_graft and to_prune maps and emit gossip for the topic. -/
def heartbeat_mesh_step (σ : Shuffler)
    (acc : Gossipsub × List (PeerId × List TopicHash)
      × List (PeerId × List TopicHash))
    (entry : TopicHash × List PeerId) :
    Gossipsub × List (PeerId × List TopicHash)
      × List (PeerId × List TopicHash) :=
  let s := acc.1
  let to_graft := acc.2.1
  let to_prune := acc.2.2
  let topic_hash := entry.1
  let maintained := mesh_maintain s.config s.topic_peers σ entry.1 entry.2
  let s := { s with mesh := insertA s.mesh topic_hash maintained.1 }
  let to_graft := maintained.2.1.foldl
    (fun m peer => upsertA m peer [] (fun l => l ++ [topic_hash])) to_graft
  let to_prune := maintained.2.2.foldl
    (fun m peer => upsertA m peer [] (fun l => l ++ [topic_hash])) to_prune
  (s.emit_gossip topic_hash maintained.1 σ, to_graft, to_prune)

/-- The mesh-maintenance loop of Gossipsub::heartbeat over the snapshot of
the mesh. -/
def heartbeat_mesh (s : Gossipsub) (σ : Shuffler) :
    Gossipsub × List (PeerId × List TopicHash) × List (PeerId × List TopicHash) :=
  s.mesh.foldl (heartbeat_mesh_step σ) (s, [], [])

/-- Gossipsub::send_graft_prune. -/
def Gossipsub.send_graft_prune (s : Gossipsub)
    (to_graft to_prune : List (PeerId × List TopicHash)) : Gossipsub :=
  let graft_pass : Gossipsub × List (PeerId × List TopicHash) :=
    to_graft.foldl
      (fun acc entry =>
        let grafts := entry.2.map GossipsubControlAction.Graft
        let prunes := ((lookupA acc.2 entry.1).getD []).map GossipsubControlAction.Prune
        (pushEvent acc.1 (.SendEvent entry.1
           { messages := [], subscriptions := [], control_msgs := grafts ++ prunes }),
         eraseA acc.2 entry.1))
      (s, to_prune)
  graft_pass.2.foldl
    (fun s entry =>
      pushEvent s (.SendEvent entry.1
        { messages := [], subscriptions := []
          control_msgs := entry.2.map GossipsubControlAction.Prune }))
    graft_pass.1

/-- Gossipsub::flush_control_pool. -/
def Gossipsub.flush_control_pool (s : Gossipsub) : Gossipsub :=
  let s' := s.control_pool.foldl
    (fun s entry =>
      pushEvent s (.SendEvent entry.1
        { messages := [], subscriptions := [], control_msgs := entry.2 }))
    s
  { s' with control_pool := [] }

/-- The fanout-expiry step of Gossipsub::heartbeat: drop last-publish
entries older than fanout_ttl together with their fanout entries. -/
def heartbeat_fanout_expire (s : Gossipsub) (now : Nat) : Gossipsub :=
  let expired := s.fanout_last_pub.filter
    (fun e => decide (e.2 + s.config.fanout_ttl < now))
  { s with
      fanout_last_pub := s.fanout_last_pub.filter
        (fun e => !(decide (e.2 + s.config.fanout_ttl < now)))
      fanout := expired.foldl (fun f e => eraseA f e.1) s.fanout }

/-- The fanout-maintenance loop of Gossipsub::heartbeat over the snapshot of
the fanout: evict peers no longer subscribed, top up to mesh_n, emit
gossip. -/
def heartbeat_fanout_maintain (s : Gossipsub) (σ : Shuffler) : Gossipsub :=
  s.fanout.foldl
    (fun s entry =>
      let topic_hash := entry.1
      let peers := entry.2.filter
        (fun peer =>
          match lookupA s.peer_topics peer with
          | some topics => topics.1.contains topic_hash
          | none => false)
      let peers :=
        if peers.length < s.config.mesh_n then
          peers ++ get_random_peers s.topic_peers topic_hash
            (s.config.mesh_n - peers.length) (fun peer => !(peers.contains peer)) σ
        else peers
      let s := { s with fanout := insertA s.fanout topic_hash peers }
      s.emit_gossip topic_hash peers σ)
    s

/-- Gossipsub::heartbeat. -/
def Gossipsub.heartbeat (s : Gossipsub) (now : Nat) (σ : Shuffler) : Gossipsub :=
  let mesh_pass := heartbeat_mesh s σ
  let s := mesh_pass.1
  let to_graft := mesh_pass.2.1
  let to_prune := mesh_pass.2.2
  let s := heartbeat_fanout_expire s now
  let s := heartbeat_fanout_maintain s σ
  let s :=
    if !(to_graft.isEmpty) || !(to_prune.isEmpty) then
      s.send_graft_prune to_graft to_prune
    else s
  let s := s.flush_control_pool
  { s with mcache := s.mcache.shift }

/-- NetworkBehaviour::inject_connected for Gossipsub. -/
def Gossipsub.inject_connected (s : Gossipsub) (id : PeerId) : Gossipsub :=
  let subscriptions := s.mesh.map
    (fun entry => ({ topic_hash := entry.1, action := .Subscribe } : GossipsubSubscription))
  let s :=
    if subscriptions.isEmpty then s
    else
      pushEvent s (.SendEvent id
        { messages := [], subscriptions := subscriptions, control_msgs := [] })
  { s with peer_topics := insertA s.peer_topics id ([], .Gossipsub) }

/-- One iteration of the topic loop of inject_disconnected: drop the peer
from mesh[topic] and from the kind-matching list of topic_peers[topic]. -/
def disconnect_topic (id : PeerId) (node_type : NodeType) (s : Gossipsub)
    (topic : TopicHash) : Gossipsub :=
  let s :=
    match lookupA s.mesh topic with
    | some mesh_peers =>
      { s with mesh := insertA s.mesh topic (eraseFirst mesh_peers id) }
    | none => s
  match lookupA s.topic_peers topic with
  | some peer_list =>
    match node_type with
    | .Gossipsub =>
      let pl := { peer_list with gossipsub := eraseFirst peer_list.gossipsub id }
      { s with topic_peers := insertA s.topic_peers topic pl }
    | .Floodsub =>
      let pl := { peer_list with floodsub := eraseFirst peer_list.floodsub id }
      { s with topic_peers := insertA s.topic_peers topic pl }
  | none => s

/-- NetworkBehaviour::inject_disconnected for Gossipsub: walk the announced
topics of the peer record, dropping the peer from mesh and topic_peers
there, then drop the record.  The fanout is not visited. -/
def Gossipsub.inject_disconnected (s : Gossipsub) (id : PeerId) : Gossipsub :=
  match lookupA s.peer_topics id with
  | none => s
  | some (topics, node_type) =>
    let s := topics.foldl (disconnect_topic id node_type) s
    { s with peer_topics := eraseA s.peer_topics id }

/-- The host-driver inputs of the router: every injection entry point of the
NetworkBehaviour implementation plus the application-facing calls, with the
random data (sequence numbers, shuffles) and the clock as explicit
arguments. -/
inductive Input where
  | subscr (topic : TopicHash) (σ : Shuffler)
  | unsub (topic : TopicHash)
  | publish (topics : List TopicHash) (data seqno : List Nat) (now : Nat) (σ : Shuffler)
  | message (msg : GossipsubMessage) (src : PeerId)
  | subs (l : List GossipsubSubscription) (src : PeerId)
  | ihave (src : PeerId) (m : List (TopicHash × List MessageId))
  | iwant (src : PeerId) (ids : List MessageId)
  | graft (src : PeerId) (topics : List TopicHash)
  | prune (src : PeerId) (topics : List TopicHash)
  | hb (now : Nat) (σ : Shuffler)
  | connected (p : PeerId)
  | disconnected (p : PeerId)

/-- Dispatch one input to its handler. -/
def applyInput (s : Gossipsub) : Input → Gossipsub
  | .subscr t σ => (s.subscribe t σ).1
  | .unsub t => (s.unsubscribe t).1
  | .publish ts d q now σ => s.publish_many ts d q now σ
  | .message m src => s.handle_received_message m src
  | .subs l src => s.handle_received_subscriptions l src
  | .ihave src m => s.handle_ihave src m
  | .iwant src ids => s.handle_iwant src ids
  | .graft src ts => s.handle_graft src ts
  | .prune src ts => s.handle_prune src ts
  | .hb now σ => s.heartbeat now σ
  | .connected p => s.inject_connected p
  | .disconnected p => s.inject_disconnected p

/-- Run a whole sequence of host inputs. -/
def runInputs (s : Gossipsub) (l : List Input) : Gossipsub :=
  l.foldl applyInput s

/-! Observation functions used by the theorems. -/

/-- The gossipsub peer list recorded for a topic. -/
def gossipsubPeersOf (topic_peers : List (TopicHash × PeerList)) (t : TopicHash) :
    List PeerId :=
  match lookupA topic_peers t with
  | some peer_list => peer_list.gossipsub
  | none => []

/-- The floodsub peer list recorded for a topic. -/
def floodsubPeersOf (topic_peers : List (TopicHash × PeerList)) (t : TopicHash) :
    List PeerId :=
  match lookupA topic_peers t with
  | some peer_list => peer_list.floodsub
  | none => []

/-- How many occurrences of one control action a single queued swarm action
carries for a given peer. -/
def eventActCount (p : PeerId) (a : GossipsubControlAction) :
    NetworkBehaviourAction → Nat
  | .SendEvent q rpc => if q = p then rpc.control_msgs.count a else 0
  | .GenerateEvent _ => 0

/-- Total occurrences of a control action addressed to a peer in the event
queue. -/
def countActTo (evs : List NetworkBehaviourAction) (p : PeerId)
    (a : GossipsubControlAction) : Nat :=
  (evs.map (eventActCount p a)).sum

/-- Whether a queued swarm action is a message send of msg to peer p. -/
def sendsMsgTo (p : PeerId) (msg : GossipsubMessage) :
    NetworkBehaviourAction → Bool
  | .SendEvent q rpc => q == p && rpc.messages.contains msg
  | .GenerateEvent _ => false

/-- Number of sends (of any payload) addressed to a peer in the queue. -/
def sendToCount (p : PeerId) : NetworkBehaviourAction → Nat
  | .SendEvent q _ => if q = p then 1 else 0
  | .GenerateEvent _ => 0

def countSendTo (evs : List NetworkBehaviourAction) (p : PeerId) : Nat :=
  (evs.map (sendToCount p)).sum

/-- Whether a queued swarm action is the app event for a message with the
given id. -/
def msgEvCount (i : MessageId) : NetworkBehaviourAction → Nat
  | .GenerateEvent (.Message m) => if m.id = i then 1 else 0
  | _ => 0

def countMsgEv (evs : List NetworkBehaviourAction) (i : MessageId) : Nat :=
  (evs.map (msgEvCount i)).sum

/-- Occurrences of a value in the list held at a key of an association list
of lists. -/
def bagCount {α β : Type} [DecidableEq α] [DecidableEq β]
    (m : List (α × List β)) (k : α) (v : β) : Nat :=
  ((lookupA m k).getD []).count v

/-! Concrete scenario states used by the counterexamples and witnesses.
Each is reached from Gossipsub.new through the embedded operations; the
identity shuffler is a legitimate permutation. -/

def idShuffler : Shuffler := fun l => l

/-- For claim C2: one connected peer (id 1) that has announced no topic. -/
def exC2_s0 : Gossipsub := (Gossipsub.new 0 GossipsubConfig.defaults).inject_connected 1

/-- For claim C4: peer 7 announces topic 10, the local node subscribes (7
joins the mesh), and a heartbeat flushes the pending control pool. -/
def exC4_s3 : Gossipsub :=
  (((((Gossipsub.new 0 GossipsubConfig.defaults).inject_connected 7
    ).handle_received_subscriptions [{ topic_hash := 10, action := .Subscribe }] 7
    ).subscribe 10 idShuffler).1).heartbeat 0 idShuffler

/-- For claim C4: the state right after processing PRUNE(topic 10) from
peer 7. -/
def exC4_s4 : Gossipsub := exC4_s3.handle_prune 7 [10]

/-- For claim C5: a message authored by peer 2. -/
def exC5_msg : GossipsubMessage :=
  { source := 2, data := [9], sequence_number := [0, 0, 0, 0, 0, 0, 0, 5]
    topics := [10] }

/-- For claim C5: subscribed to topic 10, peer 1 connected, and the message
received from peer 1 (so it sits in the message cache). -/
def exC5_s1 : Gossipsub :=
  ((((Gossipsub.new 0 GossipsubConfig.defaults).subscribe 10 idShuffler).1
    ).inject_connected 1).handle_received_message exC5_msg 1

/-- For claim C6: subscribed to topic 10 with an empty mesh, then two GRAFTs
from peer 7 (handle_graft pushes without a membership check). -/
def exC6_s1 : Gossipsub :=
  ((((Gossipsub.new 0 GossipsubConfig.defaults).subscribe 10 idShuffler).1
    ).handle_graft 7 [10]).handle_graft 7 [10]

/-- For claim C7: subscribed to topic 10 (empty mesh), then peer 3 connects
and announces topic 10; all defaults. -/
def exC7_s0 : Gossipsub :=
  ((((Gossipsub.new 0 GossipsubConfig.defaults).subscribe 10 idShuffler).1
    ).inject_connected 3).handle_received_subscriptions
      [{ topic_hash := 10, action := .Subscribe }] 3

/-- For claim C7: the state after publishing a message on topic 10. -/
def exC7_s1 : Gossipsub :=
  exC7_s0.publish_many [10] [1] [0, 0, 0, 0, 0, 0, 0, 9] 0 idShuffler

/-- For claim C8: subscribed to topic 10 only. -/
def exC8_s : Gossipsub :=
  ((Gossipsub.new 0 GossipsubConfig.defaults).subscribe 10 idShuffler).1

/-- For claim C9: peer 4 announces topic 11 and a publish on the
unsubscribed topic 11 materialises fanout[11] = [4]. -/
def exC9_s1 : Gossipsub :=
  (((Gossipsub.new 0 GossipsubConfig.defaults).inject_connected 4
    ).handle_received_subscriptions [{ topic_hash := 11, action := .Subscribe }] 4
    ).publish_many [11] [1] [0, 0, 0, 0, 0, 0, 0, 2] 0 idShuffler

/-- For the claim C6 witness: a subscribed topic 10 with single mesh peer 7. -/
def exC6w_s : Gossipsub :=
  { Gossipsub.new 0 GossipsubConfig.defaults with mesh := [(10, [7])] }

/-- Removal of a peer from the list of its kind inside a PeerList (the
node-type match of inject_disconnected). -/
def peerListRemove (node_type : NodeType) (id : PeerId) (pl : PeerList) : PeerList :=
  match node_type with
  | .Gossipsub => { pl with gossipsub := eraseFirst pl.gossipsub id }
  | .Floodsub => { pl with floodsub := eraseFirst pl.floodsub id }

/-- Dedup-observation equivalence of two states: same dedup filter and the
same count of Message app events per id. -/
def DedupQuiet (s s' : Gossipsub) : Prop :=
  s'.received = s.received ∧
  ∀ i : MessageId, countMsgEv s'.events i = countMsgEv s.events i

/-- One host-input step can only grow the dedup filter and never increases
the combined budget of emitted-or-still-allowed Message events per id. -/
def DedupStep (s s' : Gossipsub) : Prop :=
  (∀ x, x ∈ s.received → x ∈ s'.received) ∧
  ∀ i : MessageId,
    countMsgEv s'.events i + (if i ∈ s'.received then 0 else 1)
      ≤ countMsgEv s.events i + (if i ∈ s.received then 0 else 1)

/-- For claim C3: a concrete message and a state that has already processed
it. -/
def exC3_msg : GossipsubMessage :=
  { source := 5, data := [1, 2], sequence_number := [0, 0, 0, 0, 0, 0, 0, 3]
    topics := [10] }

/-- For claim C3: the fresh router after receiving exC3_msg once from
peer 1. -/
def exC3_s1 : Gossipsub :=
  (Gossipsub.new 0 GossipsubConfig.defaults).handle_received_message exC3_msg 1

/-- The control pool holds no GRAFT or PRUNE for the given topic (used to
count the control actions newly scheduled by one heartbeat). -/
def PoolNoGP (pool : List (PeerId × List GossipsubControlAction))
    (t : TopicHash) : Prop :=
  ∀ e ∈ pool, ∀ c ∈ e.2,
    c ≠ GossipsubControlAction.Graft t ∧ c ≠ GossipsubControlAction.Prune t

/-- For the claim C1 witness: a tiny configuration (mesh_n 2, low 1, high 3)
with topic 10 subscribed, an empty mesh, and two announced gossipsub
peers 5, 6. -/
def exC1_low : Gossipsub :=
  { Gossipsub.new 0
      { mesh_n := 2, mesh_n_low := 1, mesh_n_high := 3, gossip_lazy := 6
        history_gossip := 3, history_length := 5, fanout_ttl := 60 } with
      mesh := [(10, [])]
      topic_peers := [(10, { gossipsub := [5, 6], floodsub := [] })] }

/-- For the claim C1 witness: the same configuration with an oversized
mesh [1, 2, 3, 4] on topic 10. -/
def exC1_high : Gossipsub :=
  { Gossipsub.new 0
      { mesh_n := 2, mesh_n_low := 1, mesh_n_high := 3, gossip_lazy := 6
        history_gossip := 3, history_length := 5, fanout_ttl := 60 } with
      mesh := [(10, [1, 2, 3, 4])]
      topic_peers := [(10, { gossipsub := [1, 2, 3, 4], floodsub := [] })] }

/-! Association-list lemmas. -/

theorem lookupA_insertA_self {α β : Type} [DecidableEq α]
    (m : List (α × β)) (k : α) (v : β) : lookupA (insertA m k v) k = some v := by
  induction m with
  | nil => simp [insertA, lookupA]
  | cons e rest ih =>
    by_cases h : k = e.1
    · simp [insertA, lookupA, h]
    · simp [insertA, lookupA, h, ih]

theorem lookupA_insertA_ne {α β : Type} [DecidableEq α]
    (m : List (α × β)) (k k' : α) (v : β) (h : k' ≠ k) :
    lookupA (insertA m k v) k' = lookupA m k' := by
  induction m with
  | nil => simp [insertA, lookupA, h]
  | cons e rest ih =>
    by_cases hk : k = e.1
    · subst hk
      simp [insertA, lookupA, h]
    · by_cases hk' : k' = e.1
      · simp [insertA, lookupA, hk, hk']
      · simp [insertA, lookupA, hk, hk', ih]

theorem lookupA_upsertA_self {α β : Type} [DecidableEq α]
    (m : List (α × β)) (k : α) (d : β) (f : β → β) :
    lookupA (upsertA m k d f) k = some (f ((lookupA m k).getD d)) := by
  induction m with
  | nil => simp [upsertA, lookupA]
  | cons e rest ih =>
    by_cases h : k = e.1
    · simp [upsertA, lookupA, h]
    · simp [upsertA, lookupA, h, ih]

theorem lookupA_upsertA_ne {α β : Type} [DecidableEq α]
    (m : List (α × β)) (k k' : α) (d : β) (f : β → β) (h : k' ≠ k) :
    lookupA (upsertA m k d f) k' = lookupA m k' := by
  induction m with
  | nil => simp [upsertA, lookupA, h]
  | cons e rest ih =>
    by_cases hk : k = e.1
    · subst hk
      simp [upsertA, lookupA, h]
    · by_cases hk' : k' = e.1
      · simp [upsertA, lookupA, hk, hk']
      · simp [upsertA, lookupA, hk, hk', ih]

theorem lookupA_eraseA_self {α β : Type} [DecidableEq α]
    (m : List (α × β)) (k : α) : lookupA (eraseA m k) k = none := by
  induction m with
  | nil => simp [eraseA, lookupA]
  | cons e rest ih =>
    by_cases h : e.1 = k
    · simp [eraseA, lookupA, h, ih]
    · have h' : k ≠ e.1 := fun hc => h hc.symm
      simp [eraseA, lookupA, h, h', ih]

theorem lookupA_eraseA_ne {α β : Type} [DecidableEq α]
    (m : List (α × β)) (k k' : α) (h : k' ≠ k) :
    lookupA (eraseA m k) k' = lookupA m k' := by
  induction m with
  | nil => simp [eraseA, lookupA]
  | cons e rest ih =>
    by_cases hk : e.1 = k
    · have h' : k' ≠ e.1 := fun hc => h (hc.trans hk)
      simp [eraseA, lookupA, hk, h', h, ih]
    · by_cases hk' : k' = e.1
      · simp [eraseA, lookupA, hk, hk']
      · simp [eraseA, lookupA, hk, hk', ih]

theorem bagCount_upsertA_push {α β : Type} [DecidableEq α] [DecidableEq β]
    (m : List (α × List β)) (k k' : α) (v v' : β) :
    bagCount (upsertA m k [] (fun l => l ++ [v])) k' v'
      = bagCount m k' v' + (if k' = k ∧ v' = v then 1 else 0) := by
  by_cases hk : k' = k
  · subst hk
    rw [bagCount, lookupA_upsertA_self, bagCount]
    by_cases hv : v' = v
    · simp [hv]
    · simp [hv, Ne.symm hv]
  · rw [bagCount, lookupA_upsertA_ne _ _ _ _ _ hk, bagCount]
    simp [hk]

/-- The mesh peer list for a topic (empty when absent). -/
def meshPeersOf (mesh : List (TopicHash × List PeerId)) (t : TopicHash) :
    List PeerId :=
  (lookupA mesh t).getD []

/-! Event-queue counting lemmas. -/

theorem countActTo_append (evs evs' : List NetworkBehaviourAction) (p : PeerId)
    (a : GossipsubControlAction) :
    countActTo (evs ++ evs') p a = countActTo evs p a + countActTo evs' p a := by
  simp [countActTo]

theorem countSendTo_append (evs evs' : List NetworkBehaviourAction) (p : PeerId) :
    countSendTo (evs ++ evs') p = countSendTo evs p + countSendTo evs' p := by
  simp [countSendTo]

theorem countMsgEv_append (evs evs' : List NetworkBehaviourAction) (i : MessageId) :
    countMsgEv (evs ++ evs') i = countMsgEv evs i + countMsgEv evs' i := by
  simp [countMsgEv]

theorem countSendTo_cons (e : NetworkBehaviourAction)
    (evs : List NetworkBehaviourAction) (p : PeerId) :
    countSendTo (e :: evs) p = sendToCount p e + countSendTo evs p := by
  simp [countSendTo]

theorem foldl_pushEvent {α : Type} (g : α → NetworkBehaviourAction) (l : List α)
    (s : Gossipsub) :
    l.foldl (fun s x => pushEvent s (g x)) s
      = { s with events := s.events ++ l.map g } := by
  induction l generalizing s with
  | nil => simp
  | cons x rest ih =>
    rw [List.foldl_cons, ih]
    simp [pushEvent]

theorem countSendTo_map_send {α : Type} (l : List α) (q : α → PeerId)
    (r : α → GossipsubRpc) (p : PeerId) :
    countSendTo (l.map (fun x => NetworkBehaviourAction.SendEvent (q x) (r x))) p
      = (l.map q).count p := by
  induction l with
  | nil => rfl
  | cons x rest ih =>
    rw [List.map_cons, List.map_cons, countSendTo_cons, ih, List.count_cons]
    by_cases h : q x = p
    · simp [sendToCount, h, Nat.add_comm]
    · simp [sendToCount, h, Ne.symm h]

/-! Set-list lemmas. -/

theorem mem_insertSet {α : Type} [DecidableEq α] (l : List α) (a b : α) :
    a ∈ insertSet l b ↔ a ∈ l ∨ a = b := by
  by_cases h : b ∈ l
  · simp only [insertSet, if_pos h]
    constructor
    · exact Or.inl
    · rintro (ha | ha)
      · exact ha
      · exact ha ▸ h
  · simp [insertSet, h]

/-! Recipient-set lemmas for the forwarding path. -/

theorem mem_fold_insertSet_ne {α : Type} [DecidableEq α]
    (pl : List α) (src : α) (acc : List α) (h : src ∉ acc) :
    src ∉ pl.foldl (fun acc q => if q ≠ src then insertSet acc q else acc) acc := by
  induction pl generalizing acc with
  | nil => exact h
  | cons q rest ih =>
    rw [List.foldl_cons]
    by_cases hq : q ≠ src
    · rw [if_pos hq]
      refine ih _ ?hacc
      rw [mem_insertSet]
      rintro (hc | hc)
      · exact h hc
      · exact hq hc.symm
    · rw [if_neg hq]
      exact ih _ h

theorem forwardRecipients_not_source (s : Gossipsub) (msg : GossipsubMessage)
    (src : PeerId) : src ∉ forwardRecipients s msg src := by
  rw [forwardRecipients]
  generalize hacc : ([] : List PeerId) = acc
  have h : src ∉ acc := by rw [← hacc]; simp
  clear hacc
  induction msg.topics generalizing acc with
  | nil => exact h
  | cons t rest ih =>
    rw [List.foldl_cons]
    apply ih
    cases hf : lookupA s.topic_peers t <;> cases hm : lookupA s.mesh t <;>
      simp only [hf, hm] <;>
        first
        | exact h
        | exact mem_fold_insertSet_ne _ _ _ h
        | exact mem_fold_insertSet_ne _ _ _ (mem_fold_insertSet_ne _ _ _ h)

theorem forward_msg_eq (s : Gossipsub) (msg : GossipsubMessage) (src : PeerId) :
    s.forward_msg msg src =
      { s with
          events := s.events ++ (forwardRecipients s msg src).map
            (fun peer => NetworkBehaviourAction.SendEvent peer
              { messages := [msg], subscriptions := [], control_msgs := [] }) } := by
  rw [Gossipsub.forward_msg, foldl_pushEvent]

theorem countSendTo_forward_msg (s : Gossipsub) (msg : GossipsubMessage)
    (src : PeerId) :
    countSendTo (s.forward_msg msg src).events src = countSendTo s.events src := by
  rw [forward_msg_eq]
  simp only [countSendTo_append]
  have h0 : countSendTo ((forwardRecipients s msg src).map
      (fun peer => NetworkBehaviourAction.SendEvent peer
        { messages := [msg], subscriptions := [], control_msgs := [] })) src = 0 := by
    rw [countSendTo_map_send]
    simp only [List.map_id']
    exact List.count_eq_zero.mpr (forwardRecipients_not_source s msg src)
  omega

theorem filter_filter_same {α : Type} (l : List α) (f : α → Bool) :
    (l.filter f).filter f = l.filter f := by
  induction l with
  | nil => rfl
  | cons x xs ih =>
    by_cases h : f x
    · simp [List.filter_cons, h, ih]
    · simp only [List.filter_cons, Bool.not_eq_true] at *
      simp [h, ih]

theorem received_forward_msg (s : Gossipsub) (msg : GossipsubMessage)
    (src : PeerId) : (s.forward_msg msg src).received = s.received := by
  rw [forward_msg_eq]

theorem handle_prune_cons (s : Gossipsub) (p : PeerId) (t0 : TopicHash)
    (rest : List TopicHash) :
    s.handle_prune p (t0 :: rest) =
      (match lookupA s.mesh t0 with
       | some peers =>
         { s with mesh := insertA s.mesh t0 (peers.filter (fun q => q ≠ p)) }
       | none => s).handle_prune p rest := by
  rw [Gossipsub.handle_prune, List.foldl_cons]
  rfl

/-- C4 (amended): processing PRUNE(topics) from a peer removes every
occurrence of the peer from mesh[t] for each listed t and changes nothing
else; in particular no backoff of any kind is recorded, since this revision
keeps no backoff state. -/
theorem handle_prune_removes_peer_no_backoff (s : Gossipsub) (p : PeerId)
    (ts : List TopicHash) :
    ((s.handle_prune p ts).events = s.events ∧
     (s.handle_prune p ts).control_pool = s.control_pool ∧
     (s.handle_prune p ts).received = s.received ∧
     (s.handle_prune p ts).topic_peers = s.topic_peers ∧
     (s.handle_prune p ts).peer_topics = s.peer_topics ∧
     (s.handle_prune p ts).fanout = s.fanout ∧
     (s.handle_prune p ts).fanout_last_pub = s.fanout_last_pub ∧
     (s.handle_prune p ts).mcache = s.mcache) ∧
    ∀ t, lookupA (s.handle_prune p ts).mesh t =
      (lookupA s.mesh t).map
        (fun ps => if t ∈ ts then ps.filter (fun q => q ≠ p) else ps) := by
  induction ts generalizing s with
  | nil =>
    refine ⟨⟨rfl, rfl, rfl, rfl, rfl, rfl, rfl, rfl⟩, ?_⟩
    intro t
    simp [Gossipsub.handle_prune]
  | cons t0 rest ih =>
    rw [handle_prune_cons]
    cases hm : lookupA s.mesh t0 with
    | none =>
      refine ⟨(ih s).1, ?_⟩
      intro t
      rw [(ih s).2 t]
      by_cases ht : t = t0
      · subst ht
        rw [hm]
        simp
      · simp [List.mem_cons, ht]
    | some ps =>
      refine ⟨?_, ?_⟩
      · exact (ih _).1
      · intro t
        rw [(ih _).2 t]
        by_cases ht : t = t0
        · subst ht
          rw [lookupA_insertA_self, hm]
          by_cases hr : t ∈ rest
          · simp [hr, filter_filter_same]
          · simp [hr]
        · rw [lookupA_insertA_ne _ _ _ _ ht]
          simp [List.mem_cons, ht]

/-- C4 counterexample: after PRUNE(topic 10) from peer 7 is processed, the
state differs from before only in the mesh (nothing that could represent a
backoff deadline is recorded), and the very next heartbeat already sends a
fresh GRAFT for topic 10 to peer 7 - long before the claimed deadline of at
least prune_backoff + backoff_slack could have expired. -/
theorem prune_then_immediate_regraft_counterexample :
    exC4_s4 = { exC4_s3 with mesh := [(10, [])] } ∧
    lookupA exC4_s3.mesh 10 = some [7] ∧
    countActTo (exC4_s4.heartbeat 1 idShuffler).events 7 (.Graft 10)
      = countActTo exC4_s4.events 7 (.Graft 10) + 1 := by
  decide

/-- C5 (amended): on the forwarding path a received message is never
enqueued back to its propagation source - handle_received_message adds no
send addressed to that peer.  (Servicing an IWANT is a different path and
does send cached messages back to their origin; see the counterexample.) -/
theorem received_message_never_sent_back (s : Gossipsub)
    (msg : GossipsubMessage) (p : PeerId) :
    countSendTo (s.handle_received_message msg p).events p
      = countSendTo s.events p := by
  rw [Gossipsub.handle_received_message]
  by_cases h : msg.id ∈ s.received
  · rw [if_pos h]
  · rw [if_neg h]
    simp only [countSendTo_forward_msg]
    split
    · simp [pushEvent, countSendTo_append, countSendTo, sendToCount]
    · rfl

/-- C5 counterexample: the message exC5_msg was received from peer 1 (it is
recorded in the dedup filter and cache of exC5_s1), yet handling an IWANT
from peer 1 for its id enqueues that very message for delivery back to
peer 1. -/
theorem iwant_echo_counterexample :
    exC5_msg.id ∈ exC5_s1.received ∧
    (NetworkBehaviourAction.SendEvent 1
        { messages := [exC5_msg], subscriptions := [], control_msgs := [] })
      ∈ (exC5_s1.handle_iwant 1 [exC5_msg.id]).events := by
  decide

/-- C8: handle_ihave at an IHAVE block whose first entry names topic 99 (not
subscribed) and whose second entry names topic 10 (subscribed, with the
fresh id m2): the handler returns with the state unchanged - no IWANT is
pooled for the still-valid second entry, because the not-subscribed check
returns from the whole loop where its own comment says continue. -/
theorem handle_ihave_aborts_on_unsubscribed_topic :
    (lookupA exC8_s.mesh 10).isSome = true ∧
    lookupA exC8_s.mesh 99 = none ∧
    exC8_s.received = [] ∧
    exC8_s.handle_ihave 5 [(99, ["m1"]), (10, ["m2"])] = exC8_s := by
  decide

theorem hrm_received_of_not_mem (s : Gossipsub) (msg : GossipsubMessage)
    (p : PeerId) (h : msg.id ∉ s.received) :
    (s.handle_received_message msg p).received = msg.id :: s.received := by
  rw [Gossipsub.handle_received_message, if_neg h]
  simp only [received_forward_msg]
  split
  · simp [pushEvent]
  · rfl

/-- C10: a sequence-number field shorter than eight bytes is read as zero in
the derived message id, hence two messages from the same source with short
sequence numbers share one id regardless of payload, and the second is
dropped by the dedup filter right after the first is processed. -/
theorem short_seqno_id_collision (s : Gossipsub) (m1 m2 : GossipsubMessage)
    (p1 p2 : PeerId) (hsrc : m1.source = m2.source)
    (h1 : m1.sequence_number.length < 8) (h2 : m2.sequence_number.length < 8) :
    m1.id = peerIdBase58 m1.source ++ toString 0 ∧
    m1.id = m2.id ∧
    (m1.id ∉ s.received →
      (s.handle_received_message m1 p1).handle_received_message m2 p2
        = s.handle_received_message m1 p1) := by
  have hid1 : m1.id = peerIdBase58 m1.source ++ toString 0 := by
    rw [GossipsubMessage.id, if_neg (by omega)]
  have hid2 : m2.id = peerIdBase58 m2.source ++ toString 0 := by
    rw [GossipsubMessage.id, if_neg (by omega)]
  have hids : m1.id = m2.id := by rw [hid1, hid2, hsrc]
  refine ⟨hid1, hids, ?_⟩
  intro hfresh
  have hrec := hrm_received_of_not_mem s m1 p1 hfresh
  have hmem : m2.id ∈ (s.handle_received_message m1 p1).received := by
    rw [hrec, ← hids]
    exact List.mem_cons_self _ _
  set s1 := s.handle_received_message m1 p1 with hs1
  rw [Gossipsub.handle_received_message, if_pos hmem]

/-- C10 witness: two concrete messages from source 2 with distinct payloads
and short sequence numbers collide on the id string and the second is
deduplicated away. -/
theorem short_seqno_id_collision_instance :
    ({ source := 2, data := [1], sequence_number := [], topics := [10] }
        : GossipsubMessage).id
      = peerIdBase58 2 ++ toString 0 ∧
    ({ source := 2, data := [1], sequence_number := [], topics := [10] }
        : GossipsubMessage).id
      = ({ source := 2, data := [9, 9], sequence_number := [0], topics := [] }
        : GossipsubMessage).id ∧
    (({ source := 2, data := [1], sequence_number := [], topics := [10] }
        : GossipsubMessage).id ∉ (Gossipsub.new 0 GossipsubConfig.defaults).received →
      (((Gossipsub.new 0 GossipsubConfig.defaults).handle_received_message
          { source := 2, data := [1], sequence_number := [], topics := [10] } 3
        ).handle_received_message
          { source := 2, data := [9, 9], sequence_number := [0], topics := [] } 4)
        = (Gossipsub.new 0 GossipsubConfig.defaults).handle_received_message
            { source := 2, data := [1], sequence_number := [], topics := [10] } 3) :=
  short_seqno_id_collision (Gossipsub.new 0 GossipsubConfig.defaults)
    { source := 2, data := [1], sequence_number := [], topics := [10] }
    { source := 2, data := [9, 9], sequence_number := [0], topics := [] }
    3 4 (by decide) (by decide) (by decide)

theorem control_pool_add_eq (s : Gossipsub) (q : PeerId)
    (a : GossipsubControlAction) :
    s.control_pool_add q a
      = { s with control_pool := upsertA s.control_pool q [] (fun l => l ++ [a]) } :=
  rfl

theorem foldl_control_pool_add_eq (l : List PeerId) (a : GossipsubControlAction)
    (s : Gossipsub) :
    l.foldl (fun s q => s.control_pool_add q a) s
      = { s with
            control_pool := l.foldl
              (fun m q => upsertA m q [] (fun cl => cl ++ [a])) s.control_pool } := by
  induction l generalizing s with
  | nil => simp
  | cons q rest ih =>
    rw [List.foldl_cons, List.foldl_cons, ih]
    rfl

theorem bagCount_fold_push_same {α β : Type} [DecidableEq α] [DecidableEq β]
    (l : List α) (m : List (α × List β)) (v : β) (k : α) :
    bagCount (l.foldl (fun m q => upsertA m q [] (fun cl => cl ++ [v])) m) k v
      = bagCount m k v + l.count k := by
  induction l generalizing m with
  | nil => simp
  | cons q rest ih =>
    rw [List.foldl_cons, ih, bagCount_upsertA_push, List.count_cons]
    by_cases h : k = q
    · simp [h]
      omega
    · have h' : ¬ q = k := fun hc => h hc.symm
      simp [h, h']

theorem bagCount_fold_push_other {α β : Type} [DecidableEq α] [DecidableEq β]
    (l : List α) (m : List (α × List β)) (v v' : β) (k : α) (hv : v' ≠ v) :
    bagCount (l.foldl (fun m q => upsertA m q [] (fun cl => cl ++ [v])) m) k v'
      = bagCount m k v' := by
  induction l generalizing m with
  | nil => rfl
  | cons q rest ih =>
    rw [List.foldl_cons, ih, bagCount_upsertA_push]
    simp [hv]

theorem join_events (s : Gossipsub) (t : TopicHash) (σ : Shuffler) :
    (s.join t σ).events = s.events := by
  rw [Gossipsub.join]
  split
  · rfl
  · cases hf : lookupA s.fanout t <;>
      simp only [hf] <;>
        split <;>
          rw [foldl_control_pool_add_eq]

/-- C2 (amended): subscribe(topic) returns false without any effect when the
topic is already in the mesh; otherwise it enqueues one RPC holding exactly
one SUBSCRIBE to each peer recorded in topic_peers[topic] (floodsub then
gossipsub peers - only peers that announced this very topic, not every known
peer), runs JOIN, and returns true. -/
theorem subscribe_sends_topic_peers_only (s : Gossipsub) (t : TopicHash)
    (σ : Shuffler) :
    (∀ v, lookupA s.mesh t = some v → s.subscribe t σ = (s, false)) ∧
    (lookupA s.mesh t = none →
      (s.subscribe t σ).2 = true ∧
      (s.subscribe t σ).1.events
        = s.events ++
            (floodsubPeersOf s.topic_peers t ++ gossipsubPeersOf s.topic_peers t).map
              (fun peer => NetworkBehaviourAction.SendEvent peer
                { messages := []
                  subscriptions := [{ topic_hash := t, action := .Subscribe }]
                  control_msgs := [] })) := by
  constructor
  · intro v hv
    rw [Gossipsub.subscribe]
    rw [if_pos (by rw [hv]; rfl)]
  · intro hv
    rw [Gossipsub.subscribe, if_neg (by rw [hv]; simp)]
    refine ⟨rfl, ?_⟩
    rw [join_events]
    cases hf : lookupA s.topic_peers t with
    | none =>
      simp [hf, floodsubPeersOf, gossipsubPeersOf]
    | some pl =>
      simp only [hf, foldl_pushEvent, floodsubPeersOf, gossipsubPeersOf]

/-- C2 counterexample: with exactly one connected peer (peer 1, which has
announced no topic), subscribing to topic 10 succeeds but enqueues zero
outbound RPCs, where the claim demands exactly one RPC carrying a SUBSCRIBE
to every known peer. -/
theorem subscribe_not_flooded_counterexample :
    lookupA exC2_s0.peer_topics 1 = some ([], .Gossipsub) ∧
    (exC2_s0.subscribe 10 idShuffler).2 = true ∧
    (exC2_s0.subscribe 10 idShuffler).1.events = [] := by
  decide

/-- C2 witness: the amended subscribe theorem applied at the one-peer state;
the emitted list is empty because topic_peers[10] is empty. -/
theorem subscribe_sends_topic_peers_only_instance :
    (exC2_s0.subscribe 10 idShuffler).2 = true ∧
    (exC2_s0.subscribe 10 idShuffler).1.events
      = exC2_s0.events ++
          (floodsubPeersOf exC2_s0.topic_peers 10
            ++ gossipsubPeersOf exC2_s0.topic_peers 10).map
            (fun peer => NetworkBehaviourAction.SendEvent peer
              { messages := []
                subscriptions := [{ topic_hash := 10, action := .Subscribe }]
                control_msgs := [] }) :=
  (subscribe_sends_topic_peers_only exC2_s0 10 idShuffler).2 (by decide)

/-- C6 (amended): unsubscribe(t) returns false when t is not in the mesh;
otherwise it returns true, mesh[t] is gone afterwards, and one PRUNE for t
is pooled per occurrence of a peer in mesh[t] - so a peer holding a
duplicated mesh slot (possible through repeated GRAFTs) receives one PRUNE
per slot, and exactly one when mesh[t] is duplicate-free. -/
theorem unsubscribe_prunes_each_mesh_occurrence (s : Gossipsub) (t : TopicHash) :
    (lookupA s.mesh t = none → s.unsubscribe t = (s, false)) ∧
    ∀ ps, lookupA s.mesh t = some ps →
      (s.unsubscribe t).2 = true ∧
      lookupA (s.unsubscribe t).1.mesh t = none ∧
      (∀ p, bagCount (s.unsubscribe t).1.control_pool p (.Prune t)
          = bagCount s.control_pool p (.Prune t) + ps.count p) ∧
      (∀ p, ps.Nodup → p ∈ ps →
        bagCount (s.unsubscribe t).1.control_pool p (.Prune t)
          = bagCount s.control_pool p (.Prune t) + 1) := by
  constructor
  · intro hv
    rw [Gossipsub.unsubscribe, if_pos (by rw [hv]; rfl)]
  · intro ps hps
    rw [Gossipsub.unsubscribe, if_neg (by rw [hps]; simp)]
    refine ⟨rfl, ?_, ?_, ?_⟩
    all_goals
      rcases hf : lookupA s.topic_peers t with _ | pl <;>
        simp only [hf, foldl_pushEvent, Gossipsub.leave, hps,
          foldl_control_pool_add_eq, lookupA_eraseA_self]
    · intro p
      rw [bagCount_fold_push_same]
    · intro p
      rw [bagCount_fold_push_same]
    · intro p hnd hp
      rw [bagCount_fold_push_same, List.count_eq_one_of_mem hnd hp]
    · intro p hnd hp
      rw [bagCount_fold_push_same, List.count_eq_one_of_mem hnd hp]

/-- C6 counterexample: two GRAFTs from peer 7 leave mesh[10] = [7, 7] (the
GRAFT handler pushes without a membership check), and the following
unsubscribe queues two PRUNEs for peer 7, not exactly one. -/
theorem unsubscribe_duplicate_prune_counterexample :
    lookupA exC6_s1.mesh 10 = some [7, 7] ∧
    exC6_s1.control_pool = [] ∧
    (exC6_s1.unsubscribe 10).2 = true ∧
    bagCount (exC6_s1.unsubscribe 10).1.control_pool 7 (.Prune 10) = 2 := by
  decide

/-- C6 witness: the amended unsubscribe theorem at a state with
mesh[10] = [7]: returns true, the mesh entry is gone, and peer 7 has
exactly one pooled PRUNE. -/
theorem unsubscribe_prunes_each_mesh_occurrence_instance :
    (exC6w_s.unsubscribe 10).2 = true ∧
    lookupA (exC6w_s.unsubscribe 10).1.mesh 10 = none ∧
    bagCount (exC6w_s.unsubscribe 10).1.control_pool 7 (.Prune 10)
      = bagCount exC6w_s.control_pool 7 (.Prune 10) + 1 :=
  let h := (unsubscribe_prunes_each_mesh_occurrence exC6w_s 10).2 [7] (by decide)
  ⟨h.1, h.2.1, h.2.2.2 7 (by decide) (by decide)⟩

theorem disconnect_topic_preserved (id : PeerId) (nt : NodeType) (s : Gossipsub)
    (topic : TopicHash) :
    (disconnect_topic id nt s topic).events = s.events ∧
    (disconnect_topic id nt s topic).control_pool = s.control_pool ∧
    (disconnect_topic id nt s topic).received = s.received ∧
    (disconnect_topic id nt s topic).fanout = s.fanout ∧
    (disconnect_topic id nt s topic).fanout_last_pub = s.fanout_last_pub ∧
    (disconnect_topic id nt s topic).peer_topics = s.peer_topics ∧
    (disconnect_topic id nt s topic).mcache = s.mcache := by
  rw [disconnect_topic]
  rcases hm : lookupA s.mesh topic with _ | mps <;>
    simp only [hm] <;>
      rcases hf : lookupA s.topic_peers topic with _ | pl <;>
        cases nt <;>
          simp [hf]

theorem disconnect_topic_mesh (id : PeerId) (nt : NodeType) (s : Gossipsub)
    (topic : TopicHash) :
    lookupA (disconnect_topic id nt s topic).mesh topic
      = (lookupA s.mesh topic).map (fun ps => eraseFirst ps id) ∧
    ∀ t, t ≠ topic →
      lookupA (disconnect_topic id nt s topic).mesh t = lookupA s.mesh t := by
  rw [disconnect_topic]
  rcases hm : lookupA s.mesh topic with _ | mps <;>
    simp only [hm] <;>
      rcases hf : lookupA s.topic_peers topic with _ | pl <;>
        cases nt <;>
          simp only [hf, peerListRemove, Option.map_none', Option.map_some'] <;>
            refine ⟨?_, fun t ht => ?_⟩ <;>
              first
              | simp [hm, hf, peerListRemove, lookupA_insertA_self]
              | simp [hm, hf, peerListRemove, lookupA_insertA_ne _ _ _ _ ht]

theorem disconnect_topic_topic_peers (id : PeerId) (nt : NodeType) (s : Gossipsub)
    (topic : TopicHash) :
    lookupA (disconnect_topic id nt s topic).topic_peers topic
      = (lookupA s.topic_peers topic).map (peerListRemove nt id) ∧
    ∀ t, t ≠ topic →
      lookupA (disconnect_topic id nt s topic).topic_peers t
        = lookupA s.topic_peers t := by
  rw [disconnect_topic]
  rcases hm : lookupA s.mesh topic with _ | mps <;>
    simp only [hm] <;>
      rcases hf : lookupA s.topic_peers topic with _ | pl <;>
        cases nt <;>
          simp only [hf, peerListRemove, Option.map_none', Option.map_some'] <;>
            refine ⟨?_, fun t ht => ?_⟩ <;>
              first
              | simp [hm, hf, peerListRemove, lookupA_insertA_self]
              | simp [hm, hf, peerListRemove, lookupA_insertA_ne _ _ _ _ ht]

theorem disconnect_fold_char (id : PeerId) (nt : NodeType)
    (topics : List TopicHash) (s : Gossipsub) (hnd : topics.Nodup) :
    (topics.foldl (disconnect_topic id nt) s).events = s.events ∧
    (topics.foldl (disconnect_topic id nt) s).fanout = s.fanout ∧
    (topics.foldl (disconnect_topic id nt) s).peer_topics = s.peer_topics ∧
    (∀ t ∈ topics,
      lookupA (topics.foldl (disconnect_topic id nt) s).mesh t
        = (lookupA s.mesh t).map (fun ps => eraseFirst ps id) ∧
      lookupA (topics.foldl (disconnect_topic id nt) s).topic_peers t
        = (lookupA s.topic_peers t).map (peerListRemove nt id)) ∧
    (∀ t, t ∉ topics →
      lookupA (topics.foldl (disconnect_topic id nt) s).mesh t = lookupA s.mesh t ∧
      lookupA (topics.foldl (disconnect_topic id nt) s).topic_peers t
        = lookupA s.topic_peers t) := by
  induction topics generalizing s with
  | nil => exact ⟨rfl, rfl, rfl, by simp, fun t ht => ⟨rfl, rfl⟩⟩
  | cons t0 rest ih =>
    have hnd0 : t0 ∉ rest := (List.nodup_cons.mp hnd).1
    have hndr : rest.Nodup := (List.nodup_cons.mp hnd).2
    rw [List.foldl_cons]
    obtain ⟨he, hf, hp, hmem, hnotm⟩ := ih (disconnect_topic id nt s t0) hndr
    obtain ⟨hpe, hpc, hpr, hpf, hpfl, hpp, hpm⟩ := disconnect_topic_preserved id nt s t0
    obtain ⟨hm_self, hm_ne⟩ := disconnect_topic_mesh id nt s t0
    obtain ⟨htp_self, htp_ne⟩ := disconnect_topic_topic_peers id nt s t0
    refine ⟨he.trans hpe, hf.trans hpf, hp.trans hpp, ?_, ?_⟩
    · intro t ht
      rcases List.mem_cons.mp ht with h0 | hr
      · subst h0
        have hu := hnotm t hnd0
        exact ⟨hu.1.trans hm_self, hu.2.trans htp_self⟩
      · have hne : t ≠ t0 := fun hc => hnd0 (hc ▸ hr)
        have hu := hmem t hr
        exact ⟨hu.1.trans (congrArg _ (hm_ne t hne)),
               hu.2.trans (congrArg _ (htp_ne t hne))⟩
    · intro t ht
      have ht0 : t ≠ t0 := fun hc => ht (hc ▸ List.mem_cons_self _ _)
      have htr : t ∉ rest := fun hc => ht (List.mem_cons_of_mem _ hc)
      have hu := hnotm t htr
      exact ⟨hu.1.trans (hm_ne t ht0), hu.2.trans (htp_ne t ht0)⟩

/-- C9 (amended): inject_disconnected walks only the topics the peer has
announced: there it removes the peer from mesh[t] and from topic_peers[t],
and it drops the peer record; the fanout is left untouched (stale fanout
entries are only evicted by the next heartbeat), and mesh entries of
unannounced topics keep the peer. -/
theorem inject_disconnected_spec (s : Gossipsub) (p : PeerId)
    (topics : List TopicHash) (nt : NodeType)
    (h : lookupA s.peer_topics p = some (topics, nt)) (hnd : topics.Nodup) :
    (s.inject_disconnected p).fanout = s.fanout ∧
    (s.inject_disconnected p).events = s.events ∧
    lookupA (s.inject_disconnected p).peer_topics p = none ∧
    (∀ t ∈ topics,
      lookupA (s.inject_disconnected p).mesh t
        = (lookupA s.mesh t).map (fun ps => eraseFirst ps p) ∧
      lookupA (s.inject_disconnected p).topic_peers t
        = (lookupA s.topic_peers t).map (peerListRemove nt p)) ∧
    (∀ t, t ∉ topics →
      lookupA (s.inject_disconnected p).mesh t = lookupA s.mesh t) := by
  have hd : s.inject_disconnected p
      = { topics.foldl (disconnect_topic p nt) s with
            peer_topics := eraseA (topics.foldl (disconnect_topic p nt) s).peer_topics p } := by
    rw [Gossipsub.inject_disconnected, h]
  obtain ⟨he, hf, hp, hmem, hnotm⟩ := disconnect_fold_char p nt topics s hnd
  have hmesh : (s.inject_disconnected p).mesh
      = (topics.foldl (disconnect_topic p nt) s).mesh := by rw [hd]
  have htp : (s.inject_disconnected p).topic_peers
      = (topics.foldl (disconnect_topic p nt) s).topic_peers := by rw [hd]
  have hfan : (s.inject_disconnected p).fanout
      = (topics.foldl (disconnect_topic p nt) s).fanout := by rw [hd]
  have hev : (s.inject_disconnected p).events
      = (topics.foldl (disconnect_topic p nt) s).events := by rw [hd]
  have hpt : (s.inject_disconnected p).peer_topics
      = eraseA (topics.foldl (disconnect_topic p nt) s).peer_topics p := by rw [hd]
  refine ⟨hfan.trans hf, hev.trans he, ?_, ?_, ?_⟩
  · rw [hpt]
    exact lookupA_eraseA_self _ _
  · intro t ht
    rw [hmesh, htp]
    exact hmem t ht
  · intro t ht
    rw [hmesh]
    exact (hnotm t ht).1

/-- C9 counterexample: peer 4 sits in fanout[11]; after
inject_disconnected(4) the peer record is gone but fanout[11] still lists
peer 4, where the claim requires the peer to be absent from every fanout
entry. -/
theorem disconnect_leaves_fanout_counterexample :
    lookupA exC9_s1.fanout 11 = some [4] ∧
    lookupA (exC9_s1.inject_disconnected 4).peer_topics 4 = none ∧
    lookupA (exC9_s1.inject_disconnected 4).fanout 11 = some [4] := by
  decide

/-- C9 witness: the amended disconnect theorem at the concrete fanout
scenario (peer 4 announced exactly topic 11). -/
theorem inject_disconnected_spec_instance :
    (exC9_s1.inject_disconnected 4).fanout = exC9_s1.fanout ∧
    (exC9_s1.inject_disconnected 4).events = exC9_s1.events ∧
    lookupA (exC9_s1.inject_disconnected 4).peer_topics 4 = none ∧
    (∀ t ∈ [11],
      lookupA (exC9_s1.inject_disconnected 4).mesh t
        = (lookupA exC9_s1.mesh t).map (fun ps => eraseFirst ps 4) ∧
      lookupA (exC9_s1.inject_disconnected 4).topic_peers t
        = (lookupA exC9_s1.topic_peers t).map (peerListRemove NodeType.Gossipsub 4)) ∧
    (∀ t, t ∉ [11] →
      lookupA (exC9_s1.inject_disconnected 4).mesh t = lookupA exC9_s1.mesh t) :=
  inject_disconnected_spec exC9_s1 4 [11] NodeType.Gossipsub (by decide) (by decide)

theorem mem_fold_insertSet_cond {α : Type} [DecidableEq α]
    (pl : List α) (src : α) (acc : List α) (p : α)
    (h : p ∈ pl.foldl (fun acc q => if q ≠ src then insertSet acc q else acc) acc) :
    p ∈ acc ∨ p ∈ pl := by
  induction pl generalizing acc with
  | nil => exact Or.inl h
  | cons q rest ih =>
    rw [List.foldl_cons] at h
    by_cases hq : q ≠ src
    · rw [if_pos hq] at h
      rcases ih _ h with hi | hi
      · rcases (mem_insertSet _ _ _).mp hi with hi' | hi'
        · exact Or.inl hi'
        · exact Or.inr (hi' ▸ List.mem_cons_self _ _)
      · exact Or.inr (List.mem_cons_of_mem _ hi)
    · rw [if_neg hq] at h
      rcases ih _ h with hi | hi
      · exact Or.inl hi
      · exact Or.inr (List.mem_cons_of_mem _ hi)

theorem forwardRecipients_mem (s : Gossipsub) (msg : GossipsubMessage)
    (src p : PeerId) (h : p ∈ forwardRecipients s msg src) :
    ∃ t ∈ msg.topics,
      p ∈ floodsubPeersOf s.topic_peers t ∨ p ∈ meshPeersOf s.mesh t := by
  rw [forwardRecipients] at h
  have hgen : ∀ (topics : List TopicHash) (acc : List PeerId),
      p ∈ topics.foldl
        (fun acc topic =>
          let acc :=
            match lookupA s.topic_peers topic with
            | some peer_list =>
              peer_list.floodsub.foldl
                (fun acc peer_id =>
                  if peer_id ≠ src then insertSet acc peer_id else acc) acc
            | none => acc
          match lookupA s.mesh topic with
          | some mesh_peers =>
            mesh_peers.foldl
              (fun acc peer_id =>
                if peer_id ≠ src then insertSet acc peer_id else acc) acc
          | none => acc) acc →
      p ∈ acc ∨ ∃ t ∈ topics,
        p ∈ floodsubPeersOf s.topic_peers t ∨ p ∈ meshPeersOf s.mesh t := by
    intro topics
    induction topics with
    | nil => exact fun acc h => Or.inl h
    | cons t rest ih =>
      intro acc h
      rw [List.foldl_cons] at h
      rcases ih _ h with hi | ⟨t', ht', ho⟩
      · rcases hm : lookupA s.mesh t with _ | mps <;>
          rcases hf : lookupA s.topic_peers t with _ | pl <;>
            simp only [hm, hf] at hi
        · exact Or.inl hi
        · rcases mem_fold_insertSet_cond _ _ _ _ hi with hi' | hi'
          · exact Or.inl hi'
          · exact Or.inr ⟨t, List.mem_cons_self _ _,
              Or.inl (by rw [floodsubPeersOf, hf]; exact hi')⟩
        · rcases mem_fold_insertSet_cond _ _ _ _ hi with hi' | hi'
          · exact Or.inl hi'
          · exact Or.inr ⟨t, List.mem_cons_self _ _,
              Or.inr (by rw [meshPeersOf, hm]; exact hi')⟩
        · rcases mem_fold_insertSet_cond _ _ _ _ hi with hi' | hi'
          · rcases mem_fold_insertSet_cond _ _ _ _ hi' with hi'' | hi''
            · exact Or.inl hi''
            · exact Or.inr ⟨t, List.mem_cons_self _ _,
                Or.inl (by rw [floodsubPeersOf, hf]; exact hi'')⟩
          · exact Or.inr ⟨t, List.mem_cons_self _ _,
              Or.inr (by rw [meshPeersOf, hm]; exact hi')⟩
      · exact Or.inr ⟨t', List.mem_cons_of_mem _ ht', ho⟩
  rcases hgen msg.topics [] h with hi | hi
  · simp at hi
  · exact hi

/-- C7 (amended): publish on a topic currently in the mesh sends the message
through the forwarding path only - to floodsub subscribers and mesh[t]
members (never to self) - then caches it; flood_publish does not exist in
this revision, so known gossipsub-capable subscribers outside mesh[t]
receive nothing. -/
theorem publish_mesh_topic_recipients (s : Gossipsub) (t : TopicHash)
    (data seqno : List Nat) (now : Nat) (σ : Shuffler) (mps : List PeerId)
    (h : lookupA s.mesh t = some mps) :
    (s.publish_many [t] data seqno now σ
      = { s.forward_msg
            { source := s.local_peer_id, data := data
              sequence_number := seqno, topics := [t] } s.local_peer_id with
            mcache := s.mcache.put
              { source := s.local_peer_id, data := data
                sequence_number := seqno, topics := [t] }
            received := GossipsubMessage.id
              { source := s.local_peer_id, data := data
                sequence_number := seqno, topics := [t] } :: s.received }) ∧
    ∀ q, q ∉ floodsubPeersOf s.topic_peers t → q ∉ meshPeersOf s.mesh t →
      countSendTo (s.publish_many [t] data seqno now σ).events q
        = countSendTo s.events q := by
  have hmesh : (s.forward_msg
      { source := s.local_peer_id, data := data
        sequence_number := seqno, topics := [t] } s.local_peer_id).mesh
      = s.mesh := by rw [forward_msg_eq]
  have hmc : (s.forward_msg
      { source := s.local_peer_id, data := data
        sequence_number := seqno, topics := [t] } s.local_peer_id).mcache
      = s.mcache := by rw [forward_msg_eq]
  have hrec : (s.forward_msg
      { source := s.local_peer_id, data := data
        sequence_number := seqno, topics := [t] } s.local_peer_id).received
      = s.received := by rw [forward_msg_eq]
  have heq : s.publish_many [t] data seqno now σ
      = { s.forward_msg
            { source := s.local_peer_id, data := data
              sequence_number := seqno, topics := [t] } s.local_peer_id with
            mcache := s.mcache.put
              { source := s.local_peer_id, data := data
                sequence_number := seqno, topics := [t] }
            received := GossipsubMessage.id
              { source := s.local_peer_id, data := data
                sequence_number := seqno, topics := [t] } :: s.received } := by
    rw [Gossipsub.publish_many]
    simp only [List.foldl_cons, List.foldl_nil, hmesh, h, Option.isNone_some,
      Bool.false_eq_true, if_false, hmc, hrec]
  refine ⟨heq, ?_⟩
  intro q hqf hqm
  rw [heq]
  have hev : ({ s.forward_msg
      { source := s.local_peer_id, data := data
        sequence_number := seqno, topics := [t] } s.local_peer_id with
      mcache := s.mcache.put
        { source := s.local_peer_id, data := data
          sequence_number := seqno, topics := [t] }
      received := GossipsubMessage.id
        { source := s.local_peer_id, data := data
          sequence_number := seqno, topics := [t] } :: s.received } : Gossipsub).events
      = (s.forward_msg
          { source := s.local_peer_id, data := data
            sequence_number := seqno, topics := [t] } s.local_peer_id).events := rfl
  rw [hev, forward_msg_eq]
  have hnot : q ∉ forwardRecipients s
      { source := s.local_peer_id, data := data
        sequence_number := seqno, topics := [t] } s.local_peer_id := by
    intro hq
    rcases forwardRecipients_mem s _ _ q hq with ⟨t', ht', ho⟩
    have : t' = t := by
      rcases List.mem_cons.mp ht' with h' | h'
      · exact h'
      · simp at h'
    subst this
    rcases ho with ho | ho
    · exact hqf ho
    · exact hqm ho
  show countSendTo (s.events ++ _) q = countSendTo s.events q
  rw [countSendTo_append, countSendTo_map_send]
  simp only [List.map_id']
  rw [List.count_eq_zero.mpr hnot]
  omega

/-- C7 counterexample: under the default configuration, peer 3 is a known
gossipsub-capable peer that announced topic 10, the local node is subscribed
to topic 10 with an empty mesh, and publishing on topic 10 enqueues no send
at all - the claimed flood_publish behaviour would have sent the message to
peer 3. -/
theorem publish_skips_nonmesh_subscriber_counterexample :
    3 ∈ gossipsubPeersOf exC7_s0.topic_peers 10 ∧
    lookupA exC7_s0.mesh 10 = some [] ∧
    exC7_s1.events = exC7_s0.events := by
  decide

/-- C7 witness: the amended publish theorem at the concrete scenario - the
subscribed non-mesh peer 3 receives no send from the publish. -/
theorem publish_mesh_topic_recipients_instance :
    countSendTo (exC7_s0.publish_many [10] [1] [0, 0, 0, 0, 0, 0, 0, 9]
        0 idShuffler).events 3
      = countSendTo exC7_s0.events 3 :=
  (publish_mesh_topic_recipients exC7_s0 10 [1] [0, 0, 0, 0, 0, 0, 0, 9]
      0 idShuffler [] (by decide)).2 3 (by decide) (by decide)

/-! Dedup-step lemmas: every host input preserves the filter and the
at-most-once budget of Message app events. -/

theorem dedupQuiet_refl (s : Gossipsub) : DedupQuiet s s :=
  ⟨rfl, fun _ => rfl⟩

theorem dedupQuiet_trans {s s' s'' : Gossipsub}
    (h1 : DedupQuiet s s') (h2 : DedupQuiet s' s'') : DedupQuiet s s'' :=
  ⟨h2.1.trans h1.1, fun i => (h2.2 i).trans (h1.2 i)⟩

theorem dedupStep_of_quiet {s s' : Gossipsub} (h : DedupQuiet s s') :
    DedupStep s s' :=
  ⟨fun x hx => h.1 ▸ hx, fun i => by rw [h.2 i, h.1]⟩

theorem dedupStep_refl (s : Gossipsub) : DedupStep s s :=
  dedupStep_of_quiet (dedupQuiet_refl s)

theorem dedupStep_trans {s s' s'' : Gossipsub}
    (h1 : DedupStep s s') (h2 : DedupStep s' s'') : DedupStep s s'' :=
  ⟨fun x hx => h2.1 x (h1.1 x hx), fun i => (h2.2 i).trans (h1.2 i)⟩

theorem countMsgEv_map_zero {α : Type} (l : List α)
    (f : α → NetworkBehaviourAction) (i : MessageId)
    (h : ∀ x, msgEvCount i (f x) = 0) : countMsgEv (l.map f) i = 0 := by
  induction l with
  | nil => rfl
  | cons x rest ih => simp [countMsgEv, h x] at ih ⊢; omega

theorem quiet_of_append {s s' : Gossipsub} (tail : List NetworkBehaviourAction)
    (hr : s'.received = s.received) (he : s'.events = s.events ++ tail)
    (hz : ∀ i : MessageId, countMsgEv tail i = 0) : DedupQuiet s s' := by
  refine ⟨hr, fun i => ?_⟩
  rw [he, countMsgEv_append, hz i, Nat.add_zero]

theorem join_received (s : Gossipsub) (t : TopicHash) (σ : Shuffler) :
    (s.join t σ).received = s.received := by
  rw [Gossipsub.join]
  split
  · rfl
  · cases hf : lookupA s.fanout t <;>
      simp only [hf] <;>
        split <;>
          rw [foldl_control_pool_add_eq]

theorem subscribe_quiet (s : Gossipsub) (t : TopicHash) (σ : Shuffler) :
    DedupQuiet s (s.subscribe t σ).1 := by
  rw [Gossipsub.subscribe]
  split
  · exact dedupQuiet_refl s
  · cases hf : lookupA s.topic_peers t with
    | none =>
      simp only [hf]
      exact ⟨join_received s t σ, fun i => by rw [join_events]⟩
    | some pl =>
      simp only [hf, foldl_pushEvent]
      have h1 : DedupQuiet s
          { s with
              events := s.events ++ (pl.floodsub ++ pl.gossipsub).map
                (fun peer => NetworkBehaviourAction.SendEvent peer
                  { messages := []
                    subscriptions := [{ topic_hash := t, action := .Subscribe }]
                    control_msgs := [] }) } :=
        quiet_of_append _ rfl rfl (fun i => countMsgEv_map_zero _ _ i (fun x => rfl))
      exact dedupQuiet_trans h1 ⟨join_received _ t σ, fun i => by rw [join_events]⟩

theorem leave_quiet (s : Gossipsub) (t : TopicHash) :
    DedupQuiet s (s.leave t) := by
  rw [Gossipsub.leave]
  cases hm : lookupA s.mesh t with
  | none => exact dedupQuiet_refl s
  | some ps =>
    simp only [foldl_control_pool_add_eq]
    exact ⟨rfl, fun i => rfl⟩

theorem unsubscribe_quiet (s : Gossipsub) (t : TopicHash) :
    DedupQuiet s (s.unsubscribe t).1 := by
  rw [Gossipsub.unsubscribe]
  split
  · exact dedupQuiet_refl s
  · cases hf : lookupA s.topic_peers t with
    | none =>
      simp only [hf]
      exact leave_quiet s t
    | some pl =>
      simp only [hf, foldl_pushEvent]
      have h1 : DedupQuiet s
          { s with
              events := s.events ++ (pl.floodsub ++ pl.gossipsub).map
                (fun peer => NetworkBehaviourAction.SendEvent peer
                  { messages := []
                    subscriptions := [{ topic_hash := t, action := .Unsubscribe }]
                    control_msgs := [] }) } :=
        quiet_of_append _ rfl rfl (fun i => countMsgEv_map_zero _ _ i (fun x => rfl))
      exact dedupQuiet_trans h1 (leave_quiet _ t)

theorem ihave_quiet (s : Gossipsub) (p : PeerId)
    (m : List (TopicHash × List MessageId)) :
    DedupQuiet s (s.handle_ihave p m) := by
  rw [Gossipsub.handle_ihave]
  cases ihaveCollect s m [] with
  | none => exact dedupQuiet_refl s
  | some ids =>
    dsimp only
    by_cases hempty : ids.isEmpty = true
    · rw [if_pos hempty]
      exact dedupQuiet_refl s
    · rw [if_neg hempty]
      exact ⟨rfl, fun i => rfl⟩

theorem iwant_quiet (s : Gossipsub) (p : PeerId) (ids : List MessageId) :
    DedupQuiet s (s.handle_iwant p ids) := by
  rw [Gossipsub.handle_iwant]
  split
  · exact dedupQuiet_refl s
  · refine ⟨rfl, fun i => ?_⟩
    rw [pushEvent, countMsgEv_append]
    simp [countMsgEv, msgEvCount]

theorem graft_quiet (s : Gossipsub) (p : PeerId) (ts : List TopicHash) :
    DedupQuiet s (s.handle_graft p ts) := by
  rw [Gossipsub.handle_graft]
  have hfold : ∀ (l : List TopicHash) (s0 : Gossipsub) (acc : List TopicHash),
      DedupQuiet s0
        (l.foldl
          (fun acc topic_hash =>
            match lookupA acc.1.mesh topic_hash with
            | some _ =>
              ({ acc.1 with
                   mesh := upsertA acc.1.mesh topic_hash [] (fun l => l ++ [p]) },
               acc.2)
            | none => (acc.1, insertSet acc.2 topic_hash)) (s0, acc)).1 := by
    intro l
    induction l with
    | nil => exact fun s0 acc => dedupQuiet_refl s0
    | cons t rest ih =>
      intro s0 acc
      rw [List.foldl_cons]
      cases hm : lookupA s0.mesh t <;>
        simp only [hm] <;>
          exact dedupQuiet_trans (⟨rfl, fun i => rfl⟩ : DedupQuiet s0 _) (ih _ _)
  refine dedupQuiet_trans (hfold ts s []) ?_
  dsimp only
  split
  · exact dedupQuiet_refl _
  · refine ⟨rfl, fun i => ?_⟩
    rw [pushEvent, countMsgEv_append]
    simp [countMsgEv, msgEvCount]

theorem prune_quiet (s : Gossipsub) (p : PeerId) (ts : List TopicHash) :
    DedupQuiet s (s.handle_prune p ts) := by
  induction ts generalizing s with
  | nil => exact dedupQuiet_refl s
  | cons t rest ih =>
    rw [handle_prune_cons]
    cases hm : lookupA s.mesh t <;>
      simp only [hm] <;>
        exact dedupQuiet_trans (⟨rfl, fun i => rfl⟩ : DedupQuiet s _) (ih _)

theorem apply_subscription_quiet (src : PeerId) (s : Gossipsub)
    (sub : GossipsubSubscription) :
    DedupQuiet s (apply_subscription src s sub) := by
  have key : ∀ (s' : Gossipsub) (e : GossipsubEvent),
      s'.events = s.events → s'.received = s.received →
      (∀ i : MessageId, msgEvCount i (NetworkBehaviourAction.GenerateEvent e) = 0) →
      DedupQuiet s (pushEvent s' (.GenerateEvent e)) := by
    intro s' e he hr hm
    refine ⟨hr, fun i => ?_⟩
    rw [pushEvent]
    show countMsgEv (s'.events ++ [NetworkBehaviourAction.GenerateEvent e]) i
      = countMsgEv s.events i
    rw [countMsgEv_append, he]
    have hz : countMsgEv [NetworkBehaviourAction.GenerateEvent e] i = 0 := by
      simp [countMsgEv, hm i]
    rw [hz, Nat.add_zero]
  rw [apply_subscription]
  cases hpt : lookupA s.peer_topics src with
  | none => exact dedupQuiet_refl s
  | some v =>
    obtain ⟨topics, nt⟩ := v
    dsimp only
    rcases sub with ⟨th, act⟩
    cases act <;> cases nt <;> dsimp only <;>
      refine key _ _ ?_ ?_ (fun i => rfl) <;>
        first
        | (split <;> rfl)
        | rfl

theorem hrs_quiet (s : Gossipsub) (subs : List GossipsubSubscription)
    (src : PeerId) :
    DedupQuiet s (s.handle_received_subscriptions subs src) := by
  rw [Gossipsub.handle_received_subscriptions]
  cases hpt : lookupA s.peer_topics src with
  | none => exact dedupQuiet_refl s
  | some v =>
    dsimp only
    clear hpt
    induction subs generalizing s with
    | nil => exact dedupQuiet_refl s
    | cons sub rest ih =>
      rw [List.foldl_cons]
      exact dedupQuiet_trans (apply_subscription_quiet src s sub) (ih _)

theorem emit_gossip_quiet (s : Gossipsub) (t : TopicHash) (peers : List PeerId)
    (σ : Shuffler) : DedupQuiet s (s.emit_gossip t peers σ) := by
  rw [Gossipsub.emit_gossip]
  split
  · exact dedupQuiet_refl s
  · rw [foldl_control_pool_add_eq]
    exact ⟨rfl, fun i => rfl⟩

theorem heartbeat_mesh_quiet (s : Gossipsub) (σ : Shuffler) :
    DedupQuiet s (heartbeat_mesh s σ).1 := by
  rw [heartbeat_mesh]
  have hfold : ∀ (l : List (TopicHash × List PeerId)) (s0 : Gossipsub)
      (tg tp : List (PeerId × List TopicHash)),
      DedupQuiet s0 ((l.foldl (heartbeat_mesh_step σ) (s0, tg, tp)).1) := by
    intro l
    induction l with
    | nil => exact fun s0 tg tp => dedupQuiet_refl s0
    | cons e rest ih =>
      intro s0 tg tp
      rw [List.foldl_cons, heartbeat_mesh_step]
      refine dedupQuiet_trans ?_ (ih _ _ _)
      exact dedupQuiet_trans (⟨rfl, fun i => rfl⟩ : DedupQuiet s0 _)
        (emit_gossip_quiet _ _ _ σ)
  exact hfold s.mesh s [] []

theorem fanout_expire_quiet (s : Gossipsub) (now : Nat) :
    DedupQuiet s (heartbeat_fanout_expire s now) :=
  ⟨rfl, fun i => rfl⟩

theorem fanout_maintain_quiet (s : Gossipsub) (σ : Shuffler) :
    DedupQuiet s (heartbeat_fanout_maintain s σ) := by
  rw [heartbeat_fanout_maintain]
  have hfold : ∀ (l : List (TopicHash × List PeerId)) (s0 : Gossipsub),
      DedupQuiet s0
        (l.foldl
          (fun s entry =>
            let topic_hash := entry.1
            let peers := entry.2.filter
              (fun peer =>
                match lookupA s.peer_topics peer with
                | some topics => topics.1.contains topic_hash
                | none => false)
            let peers :=
              if peers.length < s.config.mesh_n then
                peers ++ get_random_peers s.topic_peers topic_hash
                  (s.config.mesh_n - peers.length)
                  (fun peer => !(peers.contains peer)) σ
              else peers
            let s := { s with fanout := insertA s.fanout topic_hash peers }
            s.emit_gossip topic_hash peers σ) s0) := by
    intro l
    induction l with
    | nil => exact fun s0 => dedupQuiet_refl s0
    | cons e rest ih =>
      intro s0
      rw [List.foldl_cons]
      refine dedupQuiet_trans ?_ (ih _)
      exact dedupQuiet_trans (⟨rfl, fun i => rfl⟩ : DedupQuiet s0 _)
        (emit_gossip_quiet _ _ _ σ)
  exact hfold s.fanout s

theorem sgp_quiet (s : Gossipsub) (tg tp : List (PeerId × List TopicHash)) :
    DedupQuiet s (s.send_graft_prune tg tp) := by
  rw [Gossipsub.send_graft_prune]
  have hfold : ∀ (l : List (PeerId × List TopicHash)) (s0 : Gossipsub)
      (tp0 : List (PeerId × List TopicHash)),
      DedupQuiet s0
        (l.foldl
          (fun acc entry =>
            let grafts := entry.2.map GossipsubControlAction.Graft
            let prunes := ((lookupA acc.2 entry.1).getD []).map
              GossipsubControlAction.Prune
            (pushEvent acc.1 (.SendEvent entry.1
               { messages := [], subscriptions := []
                 control_msgs := grafts ++ prunes }),
             eraseA acc.2 entry.1)) (s0, tp0)).1 := by
    intro l
    induction l with
    | nil => exact fun s0 tp0 => dedupQuiet_refl s0
    | cons e rest ih =>
      intro s0 tp0
      rw [List.foldl_cons]
      refine dedupQuiet_trans ?_ (ih _ _)
      refine ⟨rfl, fun i => ?_⟩
      rw [pushEvent]
      show countMsgEv (s0.events ++ [NetworkBehaviourAction.SendEvent _ _]) i
        = countMsgEv s0.events i
      rw [countMsgEv_append]
      simp [countMsgEv, msgEvCount]
  refine dedupQuiet_trans (hfold tg s tp) ?_
  rw [foldl_pushEvent]
  exact quiet_of_append _ rfl rfl (fun i => countMsgEv_map_zero _ _ i (fun x => rfl))

theorem flush_quiet (s : Gossipsub) : DedupQuiet s s.flush_control_pool := by
  rw [Gossipsub.flush_control_pool, foldl_pushEvent]
  exact quiet_of_append _ rfl rfl (fun i => countMsgEv_map_zero _ _ i (fun x => rfl))

theorem heartbeat_quiet (s : Gossipsub) (now : Nat) (σ : Shuffler) :
    DedupQuiet s (s.heartbeat now σ) := by
  rw [Gossipsub.heartbeat]
  have h3 : DedupQuiet s
      (heartbeat_fanout_maintain
        (heartbeat_fanout_expire (heartbeat_mesh s σ).1 now) σ) :=
    dedupQuiet_trans (heartbeat_mesh_quiet s σ)
      (dedupQuiet_trans (fanout_expire_quiet _ now) (fanout_maintain_quiet _ σ))
  have h4 : DedupQuiet s
      (if (!(heartbeat_mesh s σ).2.1.isEmpty || !(heartbeat_mesh s σ).2.2.isEmpty)
          = true then
        (heartbeat_fanout_maintain
          (heartbeat_fanout_expire (heartbeat_mesh s σ).1 now) σ).send_graft_prune
            (heartbeat_mesh s σ).2.1 (heartbeat_mesh s σ).2.2
      else
        heartbeat_fanout_maintain
          (heartbeat_fanout_expire (heartbeat_mesh s σ).1 now) σ) := by
    split
    · exact dedupQuiet_trans h3 (sgp_quiet _ _ _)
    · exact h3
  exact dedupQuiet_trans h4
    (dedupQuiet_trans (flush_quiet _) ⟨rfl, fun i => rfl⟩)

theorem countMsgEv_forward (s : Gossipsub) (msg : GossipsubMessage)
    (src : PeerId) (i : MessageId) :
    countMsgEv (s.forward_msg msg src).events i = countMsgEv s.events i := by
  rw [forward_msg_eq]
  dsimp only
  rw [countMsgEv_append, countMsgEv_map_zero, Nat.add_zero]
  intro x
  rfl

theorem forward_quiet (s : Gossipsub) (msg : GossipsubMessage) (src : PeerId) :
    DedupQuiet s (s.forward_msg msg src) :=
  ⟨received_forward_msg s msg src, fun i => countMsgEv_forward s msg src i⟩

theorem publish_fold_quiet (now : Nat) (σ : Shuffler) (l : List TopicHash) :
    ∀ (acc : List PeerId × Gossipsub),
    DedupQuiet acc.2
      ((l.foldl
        (fun acc topic_hash =>
          let recipient_peers := acc.1
          let s := acc.2
          if (lookupA s.mesh topic_hash).isNone then
            let picked : List PeerId × Gossipsub :=
              match lookupA s.fanout topic_hash with
              | some peers => (peers.foldl insertSet recipient_peers, s)
              | none =>
                let new_peers := get_random_peers s.topic_peers topic_hash
                  s.config.mesh_n (fun _ => true) σ
                (new_peers.foldl insertSet recipient_peers,
                 { s with fanout := insertA s.fanout topic_hash new_peers })
            (picked.1,
             { picked.2 with
                 fanout_last_pub := insertA picked.2.fanout_last_pub topic_hash now })
          else acc) acc).2) := by
  induction l with
  | nil => exact fun acc => dedupQuiet_refl _
  | cons t rest ih =>
    intro acc
    rw [List.foldl_cons]
    refine dedupQuiet_trans ?_ (ih _)
    dsimp only
    split
    · cases hf : lookupA acc.2.fanout t <;>
        simp only [hf] <;>
          exact ⟨rfl, fun i => rfl⟩
    · exact dedupQuiet_refl _

theorem publish_received_events (s : Gossipsub) (ts : List TopicHash)
    (d q : List Nat) (now : Nat) (σ : Shuffler) :
    (s.publish_many ts d q now σ).received
      = GossipsubMessage.id
          { source := s.local_peer_id, data := d, sequence_number := q
            topics := ts } :: s.received ∧
    ∀ i, countMsgEv (s.publish_many ts d q now σ).events i
      = countMsgEv s.events i := by
  rw [Gossipsub.publish_many]
  have hq1 := forward_quiet s
    { source := s.local_peer_id, data := d, sequence_number := q, topics := ts }
    s.local_peer_id
  have hq2 := publish_fold_quiet now σ ts
    ([], s.forward_msg
      { source := s.local_peer_id, data := d, sequence_number := q, topics := ts }
      s.local_peer_id)
  constructor
  · rw [foldl_pushEvent]
    dsimp only
    rw [hq2.1, hq1.1]
  · intro i
    rw [foldl_pushEvent]
    dsimp only
    rw [countMsgEv_append, countMsgEv_map_zero, Nat.add_zero, hq2.2 i, hq1.2 i]
    intro x
    rfl

theorem publish_step (s : Gossipsub) (ts : List TopicHash) (d q : List Nat)
    (now : Nat) (σ : Shuffler) :
    DedupStep s (s.publish_many ts d q now σ) := by
  obtain ⟨hr, hc⟩ := publish_received_events s ts d q now σ
  refine ⟨fun x hx => by rw [hr]; exact List.mem_cons_of_mem _ hx, fun i => ?_⟩
  rw [hc i, hr]
  by_cases hi : i ∈ s.received
  · simp [hi, List.mem_cons_of_mem _ hi]
  · by_cases hid : i = GossipsubMessage.id
        { source := s.local_peer_id, data := d, sequence_number := q
          topics := ts }
    · simp [hi, hid]
    · simp [hi, hid]

theorem hrm_step (s : Gossipsub) (msg : GossipsubMessage) (p : PeerId) :
    DedupStep s (s.handle_received_message msg p) := by
  by_cases h : msg.id ∈ s.received
  · rw [Gossipsub.handle_received_message, if_pos h]
    exact dedupStep_refl s
  · have hr := hrm_received_of_not_mem s msg p h
    refine ⟨fun x hx => by rw [hr]; exact List.mem_cons_of_mem _ hx, fun i => ?_⟩
    rw [hr]
    have hev : countMsgEv (s.handle_received_message msg p).events i
        ≤ countMsgEv s.events i + (if i = msg.id then 1 else 0) := by
      have h1 : countMsgEv
          [NetworkBehaviourAction.GenerateEvent (GossipsubEvent.Message msg)] i
          = if i = msg.id then 1 else 0 := by
        by_cases hid : msg.id = i
        · simp [countMsgEv, msgEvCount, hid]
        · have hid' : ¬ i = msg.id := fun hc => hid hc.symm
          simp [countMsgEv, msgEvCount, hid, hid']
      rw [Gossipsub.handle_received_message, if_neg h, countMsgEv_forward]
      split
      · rw [pushEvent]
        show countMsgEv (s.events ++
          [NetworkBehaviourAction.GenerateEvent (GossipsubEvent.Message msg)]) i
            ≤ countMsgEv s.events i + (if i = msg.id then 1 else 0)
        rw [countMsgEv_append, h1]
      · show countMsgEv s.events i
          ≤ countMsgEv s.events i + (if i = msg.id then 1 else 0)
        omega
    by_cases hid : i = msg.id
    · subst hid
      simp only [List.mem_cons_self, if_pos, h]
      simp at hev ⊢
      omega
    · have hmem : (i ∈ msg.id :: s.received) ↔ i ∈ s.received := by
        simp [List.mem_cons, hid]
      by_cases hi : i ∈ s.received
      · simp [hi, hmem.mpr hi, hid] at hev ⊢
        omega
      · have : i ∉ msg.id :: s.received := fun hc => hi (hmem.mp hc)
        simp [hi, this, hid] at hev ⊢
        omega

theorem connected_quiet (s : Gossipsub) (p : PeerId) :
    DedupQuiet s (s.inject_connected p) := by
  rw [Gossipsub.inject_connected]
  have h1 : DedupQuiet s
      (if (s.mesh.map (fun entry =>
            ({ topic_hash := entry.1, action := .Subscribe }
              : GossipsubSubscription))).isEmpty = true then s
       else pushEvent s (.SendEvent p
         { messages := []
           subscriptions := s.mesh.map (fun entry =>
             ({ topic_hash := entry.1, action := .Subscribe }
               : GossipsubSubscription))
           control_msgs := [] })) := by
    split
    · exact dedupQuiet_refl s
    · refine ⟨rfl, fun i => ?_⟩
      rw [pushEvent]
      dsimp only
      rw [countMsgEv_append]
      simp [countMsgEv, msgEvCount]
  exact dedupQuiet_trans h1 ⟨rfl, fun i => rfl⟩

theorem disconnected_quiet (s : Gossipsub) (p : PeerId) :
    DedupQuiet s (s.inject_disconnected p) := by
  rw [Gossipsub.inject_disconnected]
  cases hpt : lookupA s.peer_topics p with
  | none => exact dedupQuiet_refl s
  | some v =>
    obtain ⟨topics, nt⟩ := v
    dsimp only
    have hfold : ∀ (l : List TopicHash) (s0 : Gossipsub),
        DedupQuiet s0 (l.foldl (disconnect_topic p nt) s0) := by
      intro l
      induction l with
      | nil => exact fun s0 => dedupQuiet_refl s0
      | cons t rest ih =>
        intro s0
        rw [List.foldl_cons]
        have hp := disconnect_topic_preserved p nt s0 t
        exact dedupQuiet_trans ⟨hp.2.2.1, fun i => by rw [hp.1]⟩ (ih _)
    exact dedupQuiet_trans (hfold topics s) ⟨rfl, fun i => rfl⟩

theorem applyInput_step (s : Gossipsub) (inp : Input) :
    DedupStep s (applyInput s inp) := by
  cases inp with
  | subscr t σ => exact dedupStep_of_quiet (subscribe_quiet s t σ)
  | unsub t => exact dedupStep_of_quiet (unsubscribe_quiet s t)
  | publish ts d q now σ => exact publish_step s ts d q now σ
  | message m src => exact hrm_step s m src
  | subs l src => exact dedupStep_of_quiet (hrs_quiet s l src)
  | ihave src m => exact dedupStep_of_quiet (ihave_quiet s src m)
  | iwant src ids => exact dedupStep_of_quiet (iwant_quiet s src ids)
  | graft src ts => exact dedupStep_of_quiet (graft_quiet s src ts)
  | prune src ts => exact dedupStep_of_quiet (prune_quiet s src ts)
  | hb now σ => exact dedupStep_of_quiet (heartbeat_quiet s now σ)
  | connected p => exact dedupStep_of_quiet (connected_quiet s p)
  | disconnected p => exact dedupStep_of_quiet (disconnected_quiet s p)

theorem runInputs_step (s : Gossipsub) (l : List Input) :
    DedupStep s (runInputs s l) := by
  rw [runInputs]
  induction l generalizing s with
  | nil => exact dedupStep_refl s
  | cons inp rest ih =>
    rw [List.foldl_cons]
    exact dedupStep_trans (applyInput_step s inp) (ih _)

/-- C3: the dedup filter makes message processing idempotent per message id,
and over an arbitrary sequence of host inputs the Message app event for a
given id is emitted at most once: a message whose id is already in the
filter is dropped with the state unchanged, processing a fresh message
records its id, the filter only ever grows, and the total count of Message
events with a given id never exceeds one. -/
theorem message_event_at_most_once (s : Gossipsub) (msg : GossipsubMessage)
    (p : PeerId) (l : List Input) (i : MessageId) :
    (msg.id ∈ s.received → s.handle_received_message msg p = s) ∧
    (msg.id ∉ s.received →
      msg.id ∈ (s.handle_received_message msg p).received) ∧
    (∀ x, x ∈ s.received → x ∈ (runInputs s l).received) ∧
    (countMsgEv s.events i = 0 → countMsgEv (runInputs s l).events i ≤ 1) := by
  refine ⟨?_, ?_, (runInputs_step s l).1, ?_⟩
  · intro h
    rw [Gossipsub.handle_received_message, if_pos h]
  · intro h
    rw [hrm_received_of_not_mem s msg p h]
    exact List.mem_cons_self _ _
  · intro h0
    have hb := (runInputs_step s l).2 i
    rw [h0] at hb
    split at hb <;> split at hb <;> omega

/-- C3 witness: the concrete message processed once is dropped on the second
processing, its id enters and stays in the filter, and running the fresh
router over the two deliveries of the same message (from two peers) emits
at most one Message event for its id. -/
theorem message_event_at_most_once_instance :
    exC3_s1.handle_received_message exC3_msg 2 = exC3_s1 ∧
    exC3_msg.id ∈ ((Gossipsub.new 0 GossipsubConfig.defaults
      ).handle_received_message exC3_msg 1).received ∧
    exC3_msg.id ∈ (runInputs exC3_s1 [Input.message exC3_msg 2]).received ∧
    countMsgEv (runInputs (Gossipsub.new 0 GossipsubConfig.defaults)
      [Input.message exC3_msg 1, Input.message exC3_msg 2]).events exC3_msg.id
      ≤ 1 :=
  ⟨(message_event_at_most_once exC3_s1 exC3_msg 2 [] exC3_msg.id).1 (by decide),
   (message_event_at_most_once (Gossipsub.new 0 GossipsubConfig.defaults)
      exC3_msg 1 [] exC3_msg.id).2.1 (by decide),
   (message_event_at_most_once exC3_s1 exC3_msg 2
      [Input.message exC3_msg 2] exC3_msg.id).2.2.1 exC3_msg.id (by decide),
   (message_event_at_most_once (Gossipsub.new 0 GossipsubConfig.defaults)
      exC3_msg 1 [Input.message exC3_msg 1, Input.message exC3_msg 2]
      exC3_msg.id).2.2.2 (by decide)⟩

/-! Counting lemmas for the heartbeat control traffic. -/

theorem countActTo_push (s : Gossipsub) (e : NetworkBehaviourAction)
    (p : PeerId) (a : GossipsubControlAction) :
    countActTo (pushEvent s e).events p a
      = countActTo s.events p a + eventActCount p a e := by
  rw [pushEvent]
  dsimp only
  rw [countActTo_append]
  simp [countActTo]

theorem countActTo_map_zero {α : Type} (l : List α)
    (f : α → NetworkBehaviourAction) (p : PeerId) (a : GossipsubControlAction)
    (h : ∀ x ∈ l, eventActCount p a (f x) = 0) :
    countActTo (l.map f) p a = 0 := by
  induction l with
  | nil => rfl
  | cons x rest ih =>
    have hx := h x (List.mem_cons_self _ _)
    have hr := ih (fun y hy => h y (List.mem_cons_of_mem _ hy))
    simp [countActTo] at hr ⊢
    omega

theorem count_map_graft (l : List TopicHash) (t : TopicHash) :
    (l.map GossipsubControlAction.Graft).count (.Graft t) = l.count t := by
  induction l with
  | nil => rfl
  | cons x rest ih =>
    by_cases hx : x = t
    · simp [List.count_cons, hx, ih]
    · simp [List.count_cons, hx, ih]

theorem count_map_prune (l : List TopicHash) (t : TopicHash) :
    (l.map GossipsubControlAction.Prune).count (.Prune t) = l.count t := by
  induction l with
  | nil => rfl
  | cons x rest ih =>
    by_cases hx : x = t
    · simp [List.count_cons, hx, ih]
    · simp [List.count_cons, hx, ih]

theorem count_map_prune_graft (l : List TopicHash) (t : TopicHash) :
    (l.map GossipsubControlAction.Prune).count (.Graft t) = 0 := by
  induction l with
  | nil => rfl
  | cons x rest ih => simp [List.count_cons, ih]

theorem count_map_graft_prune (l : List TopicHash) (t : TopicHash) :
    (l.map GossipsubControlAction.Graft).count (.Prune t) = 0 := by
  induction l with
  | nil => rfl
  | cons x rest ih => simp [List.count_cons, ih]

theorem lookupA_eq_none_of_not_mem_keys {α β : Type} [DecidableEq α]
    (m : List (α × β)) (k : α) (h : k ∉ m.map Prod.fst) : lookupA m k = none := by
  induction m with
  | nil => rfl
  | cons e rest ih =>
    simp only [List.map_cons, List.mem_cons] at h
    push_neg at h
    rw [lookupA, if_neg h.1]
    exact ih h.2

theorem bagCount_of_not_mem_keys {α β : Type} [DecidableEq α] [DecidableEq β]
    (m : List (α × List β)) (k : α) (v : β) (h : k ∉ m.map Prod.fst) :
    bagCount m k v = 0 := by
  rw [bagCount, lookupA_eq_none_of_not_mem_keys m k h]
  rfl

theorem bagCount_eraseA_ne {α β : Type} [DecidableEq α] [DecidableEq β]
    (m : List (α × List β)) (k k' : α) (v : β) (h : k' ≠ k) :
    bagCount (eraseA m k) k' v = bagCount m k' v := by
  rw [bagCount, lookupA_eraseA_ne m k k' h, bagCount]

theorem bagCount_eraseA_self {α β : Type} [DecidableEq α] [DecidableEq β]
    (m : List (α × List β)) (k : α) (v : β) :
    bagCount (eraseA m k) k v = 0 := by
  rw [bagCount, lookupA_eraseA_self]
  rfl

theorem upsertA_keys {α β : Type} [DecidableEq α] (m : List (α × β)) (k : α)
    (d : β) (f : β → β) :
    (upsertA m k d f).map Prod.fst = m.map Prod.fst ∨
    (upsertA m k d f).map Prod.fst = m.map Prod.fst ++ [k] := by
  induction m with
  | nil => exact Or.inr rfl
  | cons e rest ih =>
    by_cases h : k = e.1
    · left
      simp [upsertA, h]
    · rcases ih with ih | ih <;>
        simp [upsertA, h, ih]

theorem upsertA_keys_sub {α β : Type} [DecidableEq α] (m : List (α × β)) (k : α)
    (d : β) (f : β → β) (x : α) (hx : x ∈ (upsertA m k d f).map Prod.fst) :
    x ∈ m.map Prod.fst ∨ x = k := by
  rcases upsertA_keys m k d f with h | h <;> rw [h] at hx
  · exact Or.inl hx
  · rcases List.mem_append.mp hx with h' | h'
    · exact Or.inl h'
    · exact Or.inr (by simpa using h')

theorem upsertA_keys_nodup {α β : Type} [DecidableEq α] (m : List (α × β))
    (k : α) (d : β) (f : β → β) (h : (m.map Prod.fst).Nodup) :
    ((upsertA m k d f).map Prod.fst).Nodup := by
  induction m with
  | nil => simp [upsertA]
  | cons e rest ih =>
    simp only [List.map_cons, List.nodup_cons] at h
    by_cases hk : k = e.1
    · simp only [upsertA, if_pos hk, List.map_cons, List.nodup_cons]
      exact ⟨h.1, h.2⟩
    · simp only [upsertA, if_neg hk, List.map_cons, List.nodup_cons]
      refine ⟨fun hc => ?_, ih h.2⟩
      rcases upsertA_keys_sub rest k d f e.1 hc with h' | h'
      · exact h.1 h'
      · exact hk h'.symm

theorem poolNoGP_upsert_push (m : List (PeerId × List GossipsubControlAction))
    (k : PeerId) (v : GossipsubControlAction) (t : TopicHash)
    (h : PoolNoGP m t)
    (hv : v ≠ GossipsubControlAction.Graft t ∧ v ≠ GossipsubControlAction.Prune t) :
    PoolNoGP (upsertA m k [] (fun l => l ++ [v])) t := by
  induction m with
  | nil =>
    intro e he c hc
    simp only [upsertA, List.mem_singleton] at he
    subst he
    simp only [List.nil_append, List.mem_singleton] at hc
    subst hc
    exact hv
  | cons e0 rest ih =>
    by_cases hk : k = e0.1
    · rw [upsertA, if_pos hk]
      intro e he c hc
      rcases List.mem_cons.mp he with he' | he'
      · subst he'
        rcases List.mem_append.mp hc with hc' | hc'
        · exact h e0 (List.mem_cons_self _ _) c hc'
        · rw [List.mem_singleton.mp hc']
          exact hv
      · exact h e (List.mem_cons_of_mem _ he') c hc
    · rw [upsertA, if_neg hk]
      intro e he c hc
      rcases List.mem_cons.mp he with he' | he'
      · subst he'
        exact h e0 (List.mem_cons_self _ _) c hc
      · exact ih (fun e' he'' c' hc' => h e' (List.mem_cons_of_mem _ he'') c' hc')
          e he' c hc

theorem flush_countActTo (s : Gossipsub) (p : PeerId) (t : TopicHash)
    (a : GossipsubControlAction) (h : PoolNoGP s.control_pool t)
    (ha : a = GossipsubControlAction.Graft t ∨ a = GossipsubControlAction.Prune t) :
    countActTo s.flush_control_pool.events p a = countActTo s.events p a := by
  rw [Gossipsub.flush_control_pool, foldl_pushEvent]
  dsimp only
  rw [countActTo_append, countActTo_map_zero, Nat.add_zero]
  intro x hx
  have hz : x.2.count a = 0 := by
    rw [List.count_eq_zero]
    intro hc
    rcases ha with ha | ha <;> subst ha
    · exact (h x hx _ hc).1 rfl
    · exact (h x hx _ hc).2 rfl
  simp [eventActCount, hz]

theorem eraseA_sublist {α β : Type} [DecidableEq α] (m : List (α × β)) (k : α) :
    (eraseA m k).Sublist m := by
  induction m with
  | nil => exact List.Sublist.refl _
  | cons e rest ih =>
    by_cases h : e.1 = k
    · rw [eraseA, if_pos h]
      exact ih.cons e
    · rw [eraseA, if_neg h]
      exact ih.cons₂ e

theorem eraseA_keys_nodup {α β : Type} [DecidableEq α] (m : List (α × β))
    (k : α) (h : (m.map Prod.fst).Nodup) :
    ((eraseA m k).map Prod.fst).Nodup :=
  ((eraseA_sublist m k).map Prod.fst).nodup h

theorem sgp_nil (s : Gossipsub) (tp : List (PeerId × List TopicHash)) :
    s.send_graft_prune [] tp
      = tp.foldl
          (fun s entry =>
            pushEvent s (.SendEvent entry.1
              { messages := [], subscriptions := []
                control_msgs := entry.2.map GossipsubControlAction.Prune })) s :=
  rfl

theorem sgp_cons (s : Gossipsub) (e : PeerId × List TopicHash)
    (rest : List (PeerId × List TopicHash))
    (tp : List (PeerId × List TopicHash)) :
    s.send_graft_prune (e :: rest) tp
      = (pushEvent s (.SendEvent e.1
          { messages := [], subscriptions := []
            control_msgs := e.2.map GossipsubControlAction.Graft
              ++ ((lookupA tp e.1).getD []).map GossipsubControlAction.Prune })
        ).send_graft_prune rest (eraseA tp e.1) :=
  rfl

theorem lookupA_cons {α β : Type} [DecidableEq α] (e : α × β)
    (rest : List (α × β)) (k : α) :
    lookupA (e :: rest) k = if k = e.1 then some e.2 else lookupA rest k :=
  rfl

theorem leftover_prune_count (tp : List (PeerId × List TopicHash)) :
    ∀ (s : Gossipsub) (p : PeerId) (t : TopicHash),
    (tp.map Prod.fst).Nodup →
    countActTo
      (tp.foldl
        (fun s entry =>
          pushEvent s (.SendEvent entry.1
            { messages := [], subscriptions := []
              control_msgs := entry.2.map GossipsubControlAction.Prune })) s).events
      p (.Prune t)
      = countActTo s.events p (.Prune t) + bagCount tp p t := by
  induction tp with
  | nil =>
    intro s p t _
    simp [bagCount, lookupA]
  | cons e rest ih =>
    intro s p t hnd
    simp only [List.map_cons, List.nodup_cons] at hnd
    rw [List.foldl_cons, ih _ p t hnd.2, countActTo_push]
    by_cases hp : e.1 = p
    · subst hp
      rw [bagCount_of_not_mem_keys rest e.1 t hnd.1, bagCount, lookupA_cons,
        if_pos rfl]
      simp [eventActCount, count_map_prune]
    · have hbag : bagCount (e :: rest) p t = bagCount rest p t := by
        rw [bagCount, lookupA_cons, if_neg (fun hc => hp hc.symm), bagCount]
      rw [hbag]
      simp [eventActCount, hp]

theorem sgp_count_graft (tg : List (PeerId × List TopicHash)) :
    ∀ (s : Gossipsub) (tp : List (PeerId × List TopicHash)) (p : PeerId)
      (t : TopicHash), (tg.map Prod.fst).Nodup →
    countActTo (s.send_graft_prune tg tp).events p (.Graft t)
      = countActTo s.events p (.Graft t) + bagCount tg p t := by
  induction tg with
  | nil =>
    intro s tp p t _
    rw [sgp_nil, foldl_pushEvent]
    dsimp only
    rw [countActTo_append, countActTo_map_zero, Nat.add_zero]
    · simp [bagCount, lookupA]
    · intro x hx
      simp [eventActCount, count_map_prune_graft]
  | cons e rest ih =>
    intro s tp p t hnd
    simp only [List.map_cons, List.nodup_cons] at hnd
    rw [sgp_cons, ih _ _ p t hnd.2, countActTo_push]
    by_cases hp : e.1 = p
    · subst hp
      rw [bagCount_of_not_mem_keys rest e.1 t hnd.1, bagCount, lookupA_cons,
        if_pos rfl]
      simp [eventActCount, List.count_append, count_map_graft,
        count_map_prune_graft]
    · have hbag : bagCount (e :: rest) p t = bagCount rest p t := by
        rw [bagCount, lookupA_cons, if_neg (fun hc => hp hc.symm), bagCount]
      rw [hbag]
      simp [eventActCount, hp]

theorem sgp_count_prune (tg : List (PeerId × List TopicHash)) :
    ∀ (s : Gossipsub) (tp : List (PeerId × List TopicHash)) (p : PeerId)
      (t : TopicHash), (tg.map Prod.fst).Nodup → (tp.map Prod.fst).Nodup →
    countActTo (s.send_graft_prune tg tp).events p (.Prune t)
      = countActTo s.events p (.Prune t) + bagCount tp p t := by
  induction tg with
  | nil =>
    intro s tp p t _ hndp
    rw [sgp_nil]
    exact leftover_prune_count tp s p t hndp
  | cons e rest ih =>
    intro s tp p t hnd hndp
    simp only [List.map_cons, List.nodup_cons] at hnd
    rw [sgp_cons, ih _ _ p t hnd.2 (eraseA_keys_nodup tp e.1 hndp),
      countActTo_push]
    by_cases hp : e.1 = p
    · subst hp
      rw [bagCount_eraseA_self, bagCount]
      simp [eventActCount, List.count_append, count_map_graft_prune,
        count_map_prune]
    · rw [bagCount_eraseA_ne tp e.1 p t (fun hc => hp hc.symm)]
      simp [eventActCount, hp]

theorem get_random_peers_eq (tp : List (TopicHash × PeerList)) (t : TopicHash)
    (n : Nat) (f : PeerId → Bool) (σ : Shuffler) :
    get_random_peers tp t n f σ =
      if ((gossipsubPeersOf tp t).filter f).length ≤ n
      then (gossipsubPeersOf tp t).filter f
      else (σ ((gossipsubPeersOf tp t).filter f)).take n := by
  rw [get_random_peers, gossipsubPeersOf]
  cases lookupA tp t <;> rfl

theorem get_random_peers_length (tp : List (TopicHash × PeerList))
    (t : TopicHash) (n : Nat) (f : PeerId → Bool) (σ : Shuffler)
    (hperm : ∀ l, (σ l).Perm l)
    (hn : n ≤ ((gossipsubPeersOf tp t).filter f).length) :
    (get_random_peers tp t n f σ).length = n := by
  rw [get_random_peers_eq]
  split
  · omega
  · rw [List.length_take, (hperm _).length_eq]
    omega

theorem get_random_peers_mem (tp : List (TopicHash × PeerList))
    (t : TopicHash) (n : Nat) (f : PeerId → Bool) (σ : Shuffler)
    (hperm : ∀ l, (σ l).Perm l) (p : PeerId)
    (hp : p ∈ get_random_peers tp t n f σ) :
    p ∈ gossipsubPeersOf tp t ∧ f p = true := by
  rw [get_random_peers_eq] at hp
  have hfil : p ∈ (gossipsubPeersOf tp t).filter f := by
    split at hp
    · exact hp
    · exact (hperm _).mem_iff.mp (List.mem_of_mem_take hp)
  exact ⟨(List.mem_filter.mp hfil).1, (List.mem_filter.mp hfil).2⟩

theorem get_random_peers_nodup (tp : List (TopicHash × PeerList))
    (t : TopicHash) (n : Nat) (f : PeerId → Bool) (σ : Shuffler)
    (hperm : ∀ l, (σ l).Perm l) (hnd : (gossipsubPeersOf tp t).Nodup) :
    (get_random_peers tp t n f σ).Nodup := by
  rw [get_random_peers_eq]
  split
  · exact hnd.filter f
  · exact (List.take_sublist _ _).nodup ((hperm _).nodup_iff.mpr (hnd.filter f))

theorem mesh_maintain_low (cfg : GossipsubConfig)
    (tp : List (TopicHash × PeerList)) (σ : Shuffler) (t : TopicHash)
    (peers : List PeerId) (hperm : ∀ l, (σ l).Perm l)
    (hlow : peers.length < cfg.mesh_n_low)
    (hn1 : cfg.mesh_n_low ≤ cfg.mesh_n) (hn2 : cfg.mesh_n ≤ cfg.mesh_n_high)
    (helig : cfg.mesh_n - peers.length
      ≤ ((gossipsubPeersOf tp t).filter
          (fun p => !(peers.contains p))).length) :
    (mesh_maintain cfg tp σ t peers).1
      = peers ++ (mesh_maintain cfg tp σ t peers).2.1 ∧
    (mesh_maintain cfg tp σ t peers).2.2 = [] ∧
    (mesh_maintain cfg tp σ t peers).2.1.length = cfg.mesh_n - peers.length ∧
    (∀ p ∈ (mesh_maintain cfg tp σ t peers).2.1,
      p ∈ gossipsubPeersOf tp t ∧ p ∉ peers) ∧
    ((gossipsubPeersOf tp t).Nodup → (mesh_maintain cfg tp σ t peers).2.1.Nodup) := by
  have hlen : (get_random_peers tp t (cfg.mesh_n - peers.length)
      (fun p => !(peers.contains p)) σ).length = cfg.mesh_n - peers.length :=
    get_random_peers_length tp t _ _ σ hperm helig
  have hskip : ¬ (peers ++ get_random_peers tp t (cfg.mesh_n - peers.length)
      (fun p => !(peers.contains p)) σ).length > cfg.mesh_n_high := by
    rw [List.length_append, hlen]
    omega
  rw [mesh_maintain]
  simp only [if_pos hlow, if_neg hskip]
  refine ⟨trivial, trivial, hlen, ?_, ?_⟩
  · intro p hp
    have h := get_random_peers_mem tp t _ _ σ hperm p hp
    refine ⟨h.1, fun hc => ?_⟩
    have hb := h.2
    simp [hc] at hb
  · intro hnd
    exact get_random_peers_nodup tp t _ _ σ hperm hnd

theorem mesh_maintain_high (cfg : GossipsubConfig)
    (tp : List (TopicHash × PeerList)) (σ : Shuffler) (t : TopicHash)
    (peers : List PeerId) (hperm : ∀ l, (σ l).Perm l)
    (hhigh : peers.length > cfg.mesh_n_high)
    (hn1 : cfg.mesh_n_low ≤ cfg.mesh_n) (hn2 : cfg.mesh_n ≤ cfg.mesh_n_high) :
    (mesh_maintain cfg tp σ t peers).1 = (σ peers).take cfg.mesh_n ∧
    (mesh_maintain cfg tp σ t peers).2.1 = [] ∧
    (mesh_maintain cfg tp σ t peers).2.2
      = ((σ peers).drop cfg.mesh_n).reverse := by
  have hskip : ¬ peers.length < cfg.mesh_n_low := by omega
  have hlen : (σ peers).length = peers.length := (hperm peers).length_eq
  have harith : (σ peers).length - (peers.length - cfg.mesh_n) = cfg.mesh_n := by
    omega
  rw [mesh_maintain]
  simp only [if_neg hskip, if_pos hhigh, harith]
  exact ⟨trivial, trivial, trivial⟩

theorem emit_gossip_shape (s : Gossipsub) (t : TopicHash) (ps : List PeerId)
    (σ : Shuffler) :
    ∃ cp, s.emit_gossip t ps σ = { s with control_pool := cp } := by
  rw [Gossipsub.emit_gossip]
  split
  · exact ⟨s.control_pool, rfl⟩
  · rw [foldl_control_pool_add_eq]
    exact ⟨_, rfl⟩

theorem poolNoGP_fold_push (peers : List PeerId)
    (v : GossipsubControlAction) (t : TopicHash)
    (hv : v ≠ GossipsubControlAction.Graft t ∧ v ≠ GossipsubControlAction.Prune t) :
    ∀ (pool : List (PeerId × List GossipsubControlAction)), PoolNoGP pool t →
    PoolNoGP (peers.foldl (fun m q => upsertA m q [] (fun cl => cl ++ [v])) pool) t := by
  induction peers with
  | nil => exact fun pool h => h
  | cons q rest ih =>
    intro pool h
    rw [List.foldl_cons]
    exact ih _ (poolNoGP_upsert_push pool q v t h hv)

theorem emit_gossip_poolNoGP (s : Gossipsub) (t' : TopicHash) (ps : List PeerId)
    (σ : Shuffler) (t : TopicHash) (h : PoolNoGP s.control_pool t) :
    PoolNoGP (s.emit_gossip t' ps σ).control_pool t := by
  rw [Gossipsub.emit_gossip]
  split
  · exact h
  · rw [foldl_control_pool_add_eq]
    exact poolNoGP_fold_push _ _ t (by simp) _ h

theorem hbm_step_shape (σ : Shuffler)
    (acc : Gossipsub × List (PeerId × List TopicHash)
      × List (PeerId × List TopicHash))
    (entry : TopicHash × List PeerId) :
    ∃ cp,
      heartbeat_mesh_step σ acc entry
        = ({ acc.1 with
              mesh := insertA acc.1.mesh entry.1
                (mesh_maintain acc.1.config acc.1.topic_peers σ entry.1 entry.2).1
              control_pool := cp },
           (mesh_maintain acc.1.config acc.1.topic_peers σ entry.1 entry.2).2.1.foldl
             (fun m peer => upsertA m peer [] (fun l => l ++ [entry.1])) acc.2.1,
           (mesh_maintain acc.1.config acc.1.topic_peers σ entry.1 entry.2).2.2.foldl
             (fun m peer => upsertA m peer [] (fun l => l ++ [entry.1])) acc.2.2) := by
  rw [heartbeat_mesh_step]
  obtain ⟨cp, hcp⟩ := emit_gossip_shape
    { acc.1 with
        mesh := insertA acc.1.mesh entry.1
          (mesh_maintain acc.1.config acc.1.topic_peers σ entry.1 entry.2).1 }
    entry.1 (mesh_maintain acc.1.config acc.1.topic_peers σ entry.1 entry.2).1 σ
  refine ⟨cp, ?_⟩
  rw [hcp]

theorem hbm_step_poolNoGP (σ : Shuffler)
    (acc : Gossipsub × List (PeerId × List TopicHash)
      × List (PeerId × List TopicHash))
    (entry : TopicHash × List PeerId) (t : TopicHash)
    (h : PoolNoGP acc.1.control_pool t) :
    PoolNoGP (heartbeat_mesh_step σ acc entry).1.control_pool t := by
  rw [heartbeat_mesh_step]
  exact emit_gossip_poolNoGP _ _ _ σ t h

theorem hbm_fold_pres (σ : Shuffler) (l : List (TopicHash × List PeerId)) :
    ∀ (a : Gossipsub × List (PeerId × List TopicHash)
        × List (PeerId × List TopicHash)),
    (l.foldl (heartbeat_mesh_step σ) a).1.config = a.1.config ∧
    (l.foldl (heartbeat_mesh_step σ) a).1.topic_peers = a.1.topic_peers ∧
    (l.foldl (heartbeat_mesh_step σ) a).1.events = a.1.events ∧
    (l.foldl (heartbeat_mesh_step σ) a).1.received = a.1.received ∧
    (l.foldl (heartbeat_mesh_step σ) a).1.mcache = a.1.mcache ∧
    (l.foldl (heartbeat_mesh_step σ) a).1.fanout = a.1.fanout ∧
    (l.foldl (heartbeat_mesh_step σ) a).1.fanout_last_pub = a.1.fanout_last_pub ∧
    (l.foldl (heartbeat_mesh_step σ) a).1.peer_topics = a.1.peer_topics := by
  induction l with
  | nil => exact fun a => ⟨rfl, rfl, rfl, rfl, rfl, rfl, rfl, rfl⟩
  | cons e rest ih =>
    intro a
    rw [List.foldl_cons]
    obtain ⟨cp, hcp⟩ := hbm_step_shape σ a e
    rw [hcp]
    exact ih _

theorem hbm_fold_poolNoGP (σ : Shuffler) (l : List (TopicHash × List PeerId))
    (t : TopicHash) :
    ∀ (a : Gossipsub × List (PeerId × List TopicHash)
        × List (PeerId × List TopicHash)),
    PoolNoGP a.1.control_pool t →
    PoolNoGP (l.foldl (heartbeat_mesh_step σ) a).1.control_pool t := by
  induction l with
  | nil => exact fun a h => h
  | cons e rest ih =>
    intro a h
    rw [List.foldl_cons]
    exact ih _ (hbm_step_poolNoGP σ a e t h)

theorem hbm_fold_mesh_skip (σ : Shuffler) (l : List (TopicHash × List PeerId)) :
    ∀ (a : Gossipsub × List (PeerId × List TopicHash)
        × List (PeerId × List TopicHash)) (t : TopicHash),
    t ∉ l.map Prod.fst →
    lookupA (l.foldl (heartbeat_mesh_step σ) a).1.mesh t = lookupA a.1.mesh t := by
  induction l with
  | nil => exact fun a t _ => rfl
  | cons e rest ih =>
    intro a t ht
    simp only [List.map_cons, List.mem_cons] at ht
    push_neg at ht
    rw [List.foldl_cons]
    obtain ⟨cp, hcp⟩ := hbm_step_shape σ a e
    rw [hcp, ih _ t ht.2]
    exact lookupA_insertA_ne _ _ _ _ ht.1

theorem hbm_fold_mesh_mem (σ : Shuffler) (l : List (TopicHash × List PeerId)) :
    ∀ (a : Gossipsub × List (PeerId × List TopicHash)
        × List (PeerId × List TopicHash)) (t : TopicHash) (peers : List PeerId),
    (l.map Prod.fst).Nodup → (t, peers) ∈ l →
    lookupA (l.foldl (heartbeat_mesh_step σ) a).1.mesh t
      = some ((mesh_maintain a.1.config a.1.topic_peers σ t peers).1) := by
  induction l with
  | nil => exact fun a t peers _ h => absurd h (List.not_mem_nil _)
  | cons e rest ih =>
    intro a t peers hnd hmem
    simp only [List.map_cons, List.nodup_cons] at hnd
    rw [List.foldl_cons]
    obtain ⟨cp, hcp⟩ := hbm_step_shape σ a e
    rcases List.mem_cons.mp hmem with he | hr
    · have ht : t = e.1 := by rw [← he]
      have hps : peers = e.2 := by rw [← he]
      subst ht
      subst hps
      rw [hcp, hbm_fold_mesh_skip σ rest _ _ hnd.1]
      exact lookupA_insertA_self _ _ _
    · have htne : t ≠ e.1 := by
        intro hc
        exact hnd.1 (hc ▸ (List.mem_map.mpr ⟨(t, peers), hr, rfl⟩))
      rw [hcp]
      exact ih _ t peers hnd.2 hr

theorem hbm_fold_tg_skip (σ : Shuffler) (l : List (TopicHash × List PeerId)) :
    ∀ (a : Gossipsub × List (PeerId × List TopicHash)
        × List (PeerId × List TopicHash)) (t : TopicHash) (p : PeerId),
    t ∉ l.map Prod.fst →
    bagCount (l.foldl (heartbeat_mesh_step σ) a).2.1 p t = bagCount a.2.1 p t := by
  induction l with
  | nil => exact fun a t p _ => rfl
  | cons e rest ih =>
    intro a t p ht
    simp only [List.map_cons, List.mem_cons] at ht
    push_neg at ht
    rw [List.foldl_cons]
    obtain ⟨cp, hcp⟩ := hbm_step_shape σ a e
    rw [hcp, ih _ t p ht.2]
    exact bagCount_fold_push_other _ _ _ _ _ ht.1

theorem hbm_fold_tp_skip (σ : Shuffler) (l : List (TopicHash × List PeerId)) :
    ∀ (a : Gossipsub × List (PeerId × List TopicHash)
        × List (PeerId × List TopicHash)) (t : TopicHash) (p : PeerId),
    t ∉ l.map Prod.fst →
    bagCount (l.foldl (heartbeat_mesh_step σ) a).2.2 p t = bagCount a.2.2 p t := by
  induction l with
  | nil => exact fun a t p _ => rfl
  | cons e rest ih =>
    intro a t p ht
    simp only [List.map_cons, List.mem_cons] at ht
    push_neg at ht
    rw [List.foldl_cons]
    obtain ⟨cp, hcp⟩ := hbm_step_shape σ a e
    rw [hcp, ih _ t p ht.2]
    exact bagCount_fold_push_other _ _ _ _ _ ht.1

theorem hbm_fold_tg_mem (σ : Shuffler) (l : List (TopicHash × List PeerId)) :
    ∀ (a : Gossipsub × List (PeerId × List TopicHash)
        × List (PeerId × List TopicHash)) (t : TopicHash) (peers : List PeerId)
      (p : PeerId),
    (l.map Prod.fst).Nodup → (t, peers) ∈ l →
    bagCount (l.foldl (heartbeat_mesh_step σ) a).2.1 p t
      = bagCount a.2.1 p t
        + ((mesh_maintain a.1.config a.1.topic_peers σ t peers).2.1).count p := by
  induction l with
  | nil => exact fun a t peers p _ h => absurd h (List.not_mem_nil _)
  | cons e rest ih =>
    intro a t peers p hnd hmem
    simp only [List.map_cons, List.nodup_cons] at hnd
    rw [List.foldl_cons]
    obtain ⟨cp, hcp⟩ := hbm_step_shape σ a e
    rcases List.mem_cons.mp hmem with he | hr
    · have ht : t = e.1 := by rw [← he]
      have hps : peers = e.2 := by rw [← he]
      subst ht
      subst hps
      rw [hcp, hbm_fold_tg_skip σ rest _ _ p hnd.1]
      exact bagCount_fold_push_same _ _ _ _
    · have htne : t ≠ e.1 := by
        intro hc
        exact hnd.1 (hc ▸ (List.mem_map.mpr ⟨(t, peers), hr, rfl⟩))
      rw [hcp, ih _ t peers p hnd.2 hr]
      rw [bagCount_fold_push_other _ _ _ _ _ htne]

theorem hbm_fold_tp_mem (σ : Shuffler) (l : List (TopicHash × List PeerId)) :
    ∀ (a : Gossipsub × List (PeerId × List TopicHash)
        × List (PeerId × List TopicHash)) (t : TopicHash) (peers : List PeerId)
      (p : PeerId),
    (l.map Prod.fst).Nodup → (t, peers) ∈ l →
    bagCount (l.foldl (heartbeat_mesh_step σ) a).2.2 p t
      = bagCount a.2.2 p t
        + ((mesh_maintain a.1.config a.1.topic_peers σ t peers).2.2).count p := by
  induction l with
  | nil => exact fun a t peers p _ h => absurd h (List.not_mem_nil _)
  | cons e rest ih =>
    intro a t peers p hnd hmem
    simp only [List.map_cons, List.nodup_cons] at hnd
    rw [List.foldl_cons]
    obtain ⟨cp, hcp⟩ := hbm_step_shape σ a e
    rcases List.mem_cons.mp hmem with he | hr
    · have ht : t = e.1 := by rw [← he]
      have hps : peers = e.2 := by rw [← he]
      subst ht
      subst hps
      rw [hcp, hbm_fold_tp_skip σ rest _ _ p hnd.1]
      exact bagCount_fold_push_same _ _ _ _
    · have htne : t ≠ e.1 := by
        intro hc
        exact hnd.1 (hc ▸ (List.mem_map.mpr ⟨(t, peers), hr, rfl⟩))
      rw [hcp, ih _ t peers p hnd.2 hr]
      rw [bagCount_fold_push_other _ _ _ _ _ htne]

theorem fold_upsert_push_keys_nodup (pushed : List PeerId) (t0 : TopicHash) :
    ∀ (m : List (PeerId × List TopicHash)), (m.map Prod.fst).Nodup →
    ((pushed.foldl (fun m peer => upsertA m peer [] (fun l => l ++ [t0])) m).map
      Prod.fst).Nodup := by
  induction pushed with
  | nil => exact fun m h => h
  | cons q rest ih =>
    intro m h
    rw [List.foldl_cons]
    exact ih _ (upsertA_keys_nodup m q [] _ h)

theorem hbm_fold_keys_nodup (σ : Shuffler) (l : List (TopicHash × List PeerId)) :
    ∀ (a : Gossipsub × List (PeerId × List TopicHash)
        × List (PeerId × List TopicHash)),
    (a.2.1.map Prod.fst).Nodup → (a.2.2.map Prod.fst).Nodup →
    ((l.foldl (heartbeat_mesh_step σ) a).2.1.map Prod.fst).Nodup ∧
    ((l.foldl (heartbeat_mesh_step σ) a).2.2.map Prod.fst).Nodup := by
  induction l with
  | nil => exact fun a h1 h2 => ⟨h1, h2⟩
  | cons e rest ih =>
    intro a h1 h2
    rw [List.foldl_cons]
    obtain ⟨cp, hcp⟩ := hbm_step_shape σ a e
    rw [hcp]
    exact ih _ (fold_upsert_push_keys_nodup _ _ _ h1)
      (fold_upsert_push_keys_nodup _ _ _ h2)

theorem fanout_maintain_pres (s : Gossipsub) (σ : Shuffler) :
    (heartbeat_fanout_maintain s σ).mesh = s.mesh ∧
    (heartbeat_fanout_maintain s σ).events = s.events ∧
    ∀ t, PoolNoGP s.control_pool t →
      PoolNoGP (heartbeat_fanout_maintain s σ).control_pool t := by
  rw [heartbeat_fanout_maintain]
  have hfold : ∀ (l : List (TopicHash × List PeerId)) (s0 : Gossipsub),
      ((l.foldl
        (fun s entry =>
          let topic_hash := entry.1
          let peers := entry.2.filter
            (fun peer =>
              match lookupA s.peer_topics peer with
              | some topics => topics.1.contains topic_hash
              | none => false)
          let peers :=
            if peers.length < s.config.mesh_n then
              peers ++ get_random_peers s.topic_peers topic_hash
                (s.config.mesh_n - peers.length)
                (fun peer => !(peers.contains peer)) σ
            else peers
          let s := { s with fanout := insertA s.fanout topic_hash peers }
          s.emit_gossip topic_hash peers σ) s0).mesh = s0.mesh ∧
      (l.foldl
        (fun s entry =>
          let topic_hash := entry.1
          let peers := entry.2.filter
            (fun peer =>
              match lookupA s.peer_topics peer with
              | some topics => topics.1.contains topic_hash
              | none => false)
          let peers :=
            if peers.length < s.config.mesh_n then
              peers ++ get_random_peers s.topic_peers topic_hash
                (s.config.mesh_n - peers.length)
                (fun peer => !(peers.contains peer)) σ
            else peers
          let s := { s with fanout := insertA s.fanout topic_hash peers }
          s.emit_gossip topic_hash peers σ) s0).events = s0.events ∧
      ∀ t, PoolNoGP s0.control_pool t →
        PoolNoGP (l.foldl
          (fun s entry =>
            let topic_hash := entry.1
            let peers := entry.2.filter
              (fun peer =>
                match lookupA s.peer_topics peer with
                | some topics => topics.1.contains topic_hash
                | none => false)
            let peers :=
              if peers.length < s.config.mesh_n then
                peers ++ get_random_peers s.topic_peers topic_hash
                  (s.config.mesh_n - peers.length)
                  (fun peer => !(peers.contains peer)) σ
              else peers
            let s := { s with fanout := insertA s.fanout topic_hash peers }
            s.emit_gossip topic_hash peers σ) s0).control_pool t) := by
    intro l
    induction l with
    | nil => exact fun s0 => ⟨rfl, rfl, fun t h => h⟩
    | cons e rest ih =>
      intro s0
      rw [List.foldl_cons]
      dsimp only
      obtain ⟨cp, hcp⟩ := emit_gossip_shape
        { s0 with fanout := insertA s0.fanout e.1 _ } e.1 _ σ
      rw [hcp]
      obtain ⟨hm, he, hp⟩ := ih _
      refine ⟨hm, he, fun t h => hp t ?_⟩
      rw [← hcp]
      exact emit_gossip_poolNoGP _ _ _ σ t h
  exact hfold s.fanout s

theorem sgp_pres (tg : List (PeerId × List TopicHash)) :
    ∀ (s : Gossipsub) (tp : List (PeerId × List TopicHash)),
    (s.send_graft_prune tg tp).mesh = s.mesh ∧
    (s.send_graft_prune tg tp).control_pool = s.control_pool := by
  induction tg with
  | nil =>
    intro s tp
    rw [sgp_nil, foldl_pushEvent]
    exact ⟨rfl, rfl⟩
  | cons e rest ih =>
    intro s tp
    rw [sgp_cons]
    exact ih _ _

theorem flush_mesh (s : Gossipsub) : s.flush_control_pool.mesh = s.mesh := by
  rw [Gossipsub.flush_control_pool, foldl_pushEvent]

theorem heartbeat_mesh_lookup (s : Gossipsub) (now : Nat) (σ : Shuffler)
    (t : TopicHash) (peers : List PeerId)
    (hkeys : (s.mesh.map Prod.fst).Nodup) (hmem : (t, peers) ∈ s.mesh) :
    lookupA (s.heartbeat now σ).mesh t
      = some ((mesh_maintain s.config s.topic_peers σ t peers).1) := by
  have h1 : (s.heartbeat now σ).mesh
      = ((if (!(heartbeat_mesh s σ).2.1.isEmpty
            || !(heartbeat_mesh s σ).2.2.isEmpty) = true then
          (heartbeat_fanout_maintain
            (heartbeat_fanout_expire (heartbeat_mesh s σ).1 now) σ).send_graft_prune
            (heartbeat_mesh s σ).2.1 (heartbeat_mesh s σ).2.2
        else
          heartbeat_fanout_maintain
            (heartbeat_fanout_expire (heartbeat_mesh s σ).1 now) σ
        ).flush_control_pool).mesh := rfl
  rw [h1, flush_mesh]
  have h2 : (if (!(heartbeat_mesh s σ).2.1.isEmpty
        || !(heartbeat_mesh s σ).2.2.isEmpty) = true then
      (heartbeat_fanout_maintain
        (heartbeat_fanout_expire (heartbeat_mesh s σ).1 now) σ).send_graft_prune
        (heartbeat_mesh s σ).2.1 (heartbeat_mesh s σ).2.2
    else
      heartbeat_fanout_maintain
        (heartbeat_fanout_expire (heartbeat_mesh s σ).1 now) σ).mesh
      = (heartbeat_fanout_maintain
          (heartbeat_fanout_expire (heartbeat_mesh s σ).1 now) σ).mesh := by
    split
    · exact (sgp_pres _ _ _).1
    · rfl
  rw [h2, (fanout_maintain_pres _ σ).1]
  exact hbm_fold_mesh_mem σ s.mesh (s, [], []) t peers hkeys hmem

theorem heartbeat_counts (s : Gossipsub) (now : Nat) (σ : Shuffler)
    (p : PeerId) (t : TopicHash) (hpool : PoolNoGP s.control_pool t)
    (hk1 : ((heartbeat_mesh s σ).2.1.map Prod.fst).Nodup)
    (hk2 : ((heartbeat_mesh s σ).2.2.map Prod.fst).Nodup) :
    countActTo (s.heartbeat now σ).events p (.Graft t)
      = countActTo s.events p (.Graft t)
        + bagCount (heartbeat_mesh s σ).2.1 p t ∧
    countActTo (s.heartbeat now σ).events p (.Prune t)
      = countActTo s.events p (.Prune t)
        + bagCount (heartbeat_mesh s σ).2.2 p t := by
  have hE1 : (heartbeat_mesh s σ).1.events = s.events :=
    (hbm_fold_pres σ s.mesh (s, [], [])).2.2.1
  have hEM : (heartbeat_fanout_maintain
      (heartbeat_fanout_expire (heartbeat_mesh s σ).1 now) σ).events = s.events :=
    ((fanout_maintain_pres _ σ).2.1).trans hE1
  have hPM : PoolNoGP (heartbeat_fanout_maintain
      (heartbeat_fanout_expire (heartbeat_mesh s σ).1 now) σ).control_pool t :=
    (fanout_maintain_pres _ σ).2.2 t
      (hbm_fold_poolNoGP σ s.mesh t (s, [], []) hpool)
  have hPif : PoolNoGP
      (if (!(heartbeat_mesh s σ).2.1.isEmpty
          || !(heartbeat_mesh s σ).2.2.isEmpty) = true then
        (heartbeat_fanout_maintain
          (heartbeat_fanout_expire (heartbeat_mesh s σ).1 now) σ).send_graft_prune
          (heartbeat_mesh s σ).2.1 (heartbeat_mesh s σ).2.2
      else
        heartbeat_fanout_maintain
          (heartbeat_fanout_expire (heartbeat_mesh s σ).1 now) σ).control_pool t := by
    split
    · rw [(sgp_pres _ _ _).2]
      exact hPM
    · exact hPM
  have hfin : ∀ a : GossipsubControlAction,
      countActTo (s.heartbeat now σ).events p a
        = countActTo
            ((if (!(heartbeat_mesh s σ).2.1.isEmpty
                || !(heartbeat_mesh s σ).2.2.isEmpty) = true then
              (heartbeat_fanout_maintain
                (heartbeat_fanout_expire (heartbeat_mesh s σ).1 now) σ
                ).send_graft_prune
                (heartbeat_mesh s σ).2.1 (heartbeat_mesh s σ).2.2
            else
              heartbeat_fanout_maintain
                (heartbeat_fanout_expire (heartbeat_mesh s σ).1 now) σ
            ).flush_control_pool).events p a :=
    fun a => rfl
  constructor
  · rw [hfin, flush_countActTo _ p t _ hPif (Or.inl rfl)]
    split
    · rw [sgp_count_graft _ _ _ p t hk1, hEM]
    · rename_i hcond
      have htg : (heartbeat_mesh s σ).2.1 = [] := by
        rcases Bool.or_eq_false_iff.mp (Bool.eq_false_iff.mpr hcond) with ⟨ha, _⟩
        exact List.isEmpty_iff.mp (by simpa using ha)
      rw [hEM, htg]
      rfl
  · rw [hfin, flush_countActTo _ p t _ hPif (Or.inr rfl)]
    split
    · rw [sgp_count_prune _ _ _ p t hk1 hk2, hEM]
    · rename_i hcond
      have htp : (heartbeat_mesh s σ).2.2 = [] := by
        rcases Bool.or_eq_false_iff.mp (Bool.eq_false_iff.mpr hcond) with ⟨_, hb⟩
        exact List.isEmpty_iff.mp (by simpa using hb)
      rw [hEM, htp]
      rfl

/-- C1: On a heartbeat tick, for a topic t in the mesh (mesh keys dup-free,
mesh[t] and the gossipsub peers of t dup-free, no Graft/Prune for t already
pooled, mesh_n_low ≤ mesh_n ≤ mesh_n_high): if |mesh[t]| < mesh_n_low and
enough eligible peers exist, the router adds mesh_n − |mesh[t]| peers drawn
from the gossipsub-capable peers of topic_peers[t] that are not already in
mesh[t], and emits exactly one GRAFT for t per added peer; if
|mesh[t]| > mesh_n_high, it shuffles mesh[t], retains exactly the first
mesh_n of the shuffle, and emits exactly one PRUNE for t per removed peer. -/
theorem heartbeat_mesh_repair_trim (s : Gossipsub) (now : Nat) (σ : Shuffler)
    (t : TopicHash) (peers : List PeerId)
    (hσ : ∀ l, (σ l).Perm l)
    (hkeys : (s.mesh.map Prod.fst).Nodup)
    (hmem : (t, peers) ∈ s.mesh)
    (hnd : peers.Nodup)
    (hgnd : (gossipsubPeersOf s.topic_peers t).Nodup)
    (hn1 : s.config.mesh_n_low ≤ s.config.mesh_n)
    (hn2 : s.config.mesh_n ≤ s.config.mesh_n_high)
    (hpool : PoolNoGP s.control_pool t) :
    (peers.length < s.config.mesh_n_low →
      s.config.mesh_n - peers.length
        ≤ ((gossipsubPeersOf s.topic_peers t).filter
            (fun p => !(peers.contains p))).length →
      ∃ added : List PeerId,
        lookupA (s.heartbeat now σ).mesh t = some (peers ++ added) ∧
        added.length = s.config.mesh_n - peers.length ∧
        (∀ p ∈ added, p ∈ gossipsubPeersOf s.topic_peers t ∧ p ∉ peers) ∧
        (∀ p ∈ added,
          countActTo (s.heartbeat now σ).events p (.Graft t)
            = countActTo s.events p (.Graft t) + 1)) ∧
    (peers.length > s.config.mesh_n_high →
      ∃ shuffled : List PeerId,
        shuffled.Perm peers ∧
        lookupA (s.heartbeat now σ).mesh t
          = some (shuffled.take s.config.mesh_n) ∧
        (shuffled.take s.config.mesh_n).length = s.config.mesh_n ∧
        (∀ p ∈ shuffled.drop s.config.mesh_n,
          countActTo (s.heartbeat now σ).events p (.Prune t)
            = countActTo s.events p (.Prune t) + 1)) := by
  obtain ⟨hk1, hk2⟩ :=
    hbm_fold_keys_nodup σ s.mesh (s, [], []) (by simp) (by simp)
  constructor
  · intro hlow helig
    obtain ⟨hm1, hm2, hm3, hm4, hm5⟩ :=
      mesh_maintain_low s.config s.topic_peers σ t peers hσ hlow hn1 hn2 helig
    refine ⟨(mesh_maintain s.config s.topic_peers σ t peers).2.1, ?_, hm3, hm4, ?_⟩
    · rw [heartbeat_mesh_lookup s now σ t peers hkeys hmem]
      exact congrArg some hm1
    · intro p hp
      have hc := (heartbeat_counts s now σ p t hpool hk1 hk2).1
      have hcount1 :
          ((mesh_maintain s.config s.topic_peers σ t peers).2.1).count p = 1 :=
        List.count_eq_one_of_mem (hm5 hgnd) hp
      have hbag : bagCount (heartbeat_mesh s σ).2.1 p t = 1 := by
        rw [heartbeat_mesh,
            hbm_fold_tg_mem σ s.mesh (s, [], []) t peers p hkeys hmem]
        show 0 + ((mesh_maintain s.config s.topic_peers σ t peers).2.1).count p = 1
        rw [hcount1]
      rw [hc, hbag]
  · intro hhigh
    obtain ⟨hh1, hh2, hh3⟩ :=
      mesh_maintain_high s.config s.topic_peers σ t peers hσ hhigh hn1 hn2
    refine ⟨σ peers, hσ peers, ?_, ?_, ?_⟩
    · rw [heartbeat_mesh_lookup s now σ t peers hkeys hmem]
      exact congrArg some hh1
    · rw [List.length_take, (hσ peers).length_eq]
      omega
    · intro p hp
      have hc := (heartbeat_counts s now σ p t hpool hk1 hk2).2
      have hσnd : (σ peers).Nodup := (hσ peers).nodup_iff.mpr hnd
      have hnds : ((σ peers).drop s.config.mesh_n).Nodup :=
        List.Sublist.nodup (List.drop_sublist _ _) hσnd
      have hcount1 :
          ((mesh_maintain s.config s.topic_peers σ t peers).2.2).count p = 1 := by
        rw [hh3, List.count_reverse]
        exact List.count_eq_one_of_mem hnds hp
      have hbag : bagCount (heartbeat_mesh s σ).2.2 p t = 1 := by
        rw [heartbeat_mesh,
            hbm_fold_tp_mem σ s.mesh (s, [], []) t peers p hkeys hmem]
        show 0 + ((mesh_maintain s.config s.topic_peers σ t peers).2.2).count p = 1
        rw [hcount1]
      rw [hc, hbag]

theorem heartbeat_mesh_repair_trim_instance :
    (∃ added : List PeerId,
      lookupA (exC1_low.heartbeat 0 idShuffler).mesh 10
        = some (([] : List PeerId) ++ added) ∧
      added.length = exC1_low.config.mesh_n - ([] : List PeerId).length ∧
      (∀ p ∈ added,
        p ∈ gossipsubPeersOf exC1_low.topic_peers 10 ∧ p ∉ ([] : List PeerId)) ∧
      (∀ p ∈ added,
        countActTo (exC1_low.heartbeat 0 idShuffler).events p (.Graft 10)
          = countActTo exC1_low.events p (.Graft 10) + 1)) ∧
    (∃ shuffled : List PeerId,
      shuffled.Perm [1, 2, 3, 4] ∧
      lookupA (exC1_high.heartbeat 0 idShuffler).mesh 10
        = some (shuffled.take exC1_high.config.mesh_n) ∧
      (shuffled.take exC1_high.config.mesh_n).length = exC1_high.config.mesh_n ∧
      (∀ p ∈ shuffled.drop exC1_high.config.mesh_n,
        countActTo (exC1_high.heartbeat 0 idShuffler).events p (.Prune 10)
          = countActTo exC1_high.events p (.Prune 10) + 1)) :=
  ⟨(heartbeat_mesh_repair_trim exC1_low 0 idShuffler 10 []
      (fun l => List.Perm.refl l) (by decide) (by decide) (by decide) (by decide)
      (by decide) (by decide)
      (by
        intro e he
        rw [show exC1_low.control_pool = [] from rfl] at he
        exact absurd he (List.not_mem_nil e))).1 (by decide) (by decide),
   (heartbeat_mesh_repair_trim exC1_high 0 idShuffler 10 [1, 2, 3, 4]
      (fun l => List.Perm.refl l) (by decide) (by decide) (by decide) (by decide)
      (by decide) (by decide)
      (by
        intro e he
        rw [show exC1_high.control_pool = [] from rfl] at he
        exact absurd he (List.not_mem_nil e))).2 (by decide)⟩
